import Mathlib

/-!
The program database-connection-test.

A verification development for `src/database-connection-test/main.go`: the
`databaseConfigs` handler, the router built in `main`, and the start/stop
control flow of `main`.

Go strings are byte sequences.  The parts of the Go standard library that
the program calls (`os.Getenv`, `encoding/json`, `unicode/utf8`, `net/http`,
`path`, `errors`, `log`) are written out here as far as the program uses
them, following the library's own code and documentation.
-/

namespace DatabaseConnectionTest

/-! ## Go strings -/

/-- A Go string is a sequence of bytes; every element is a byte value
(below 256). -/
abbrev GoString := List Nat

/-- UTF-8 encoding of a Unicode scalar value (`utf8.AppendRune`). -/
def encodeRune (r : Nat) : GoString :=
  if r < 0x80 then [r]
  else if r < 0x800 then [0xC0 + r / 64, 0x80 + r % 64]
  else if r < 0x10000 then [0xE0 + r / 4096, 0x80 + r / 64 % 64, 0x80 + r % 64]
  else [0xF0 + r / 262144, 0x80 + r / 4096 % 64, 0x80 + r / 64 % 64, 0x80 + r % 64]

/-- The bytes of the characters of a string constant. -/
def strChars : List Char → GoString
  | [] => []
  | c :: cs => encodeRune c.toNat ++ strChars cs

/-- The bytes of a string constant of the program. -/
def str (s : String) : GoString := strChars s.data

/-- Byte-wise lexicographic order of Go strings (`a <= b`). -/
def strLE : GoString → GoString → Bool
  | [], _ => true
  | _ :: _, [] => false
  | a :: as, b :: bs => if a < b then true else if b < a then false else strLE as bs

/-! ## unicode/utf8 -/

/-- The value `utf8.RuneError`, U+FFFD. -/
def RuneError : Nat := 0xFFFD

/-- The table `first` of `unicode/utf8` for a lead byte of 0x80 or more: the
length of the sequence and the range accepted for its second byte, `none`
for a byte that starts no sequence. -/
def first (b : Nat) : Option (Nat × Nat × Nat) :=
  if b < 0xC2 then none
  else if b < 0xE0 then some (2, 0x80, 0xBF)
  else if b = 0xE0 then some (3, 0xA0, 0xBF)
  else if b < 0xED then some (3, 0x80, 0xBF)
  else if b = 0xED then some (3, 0x80, 0x9F)
  else if b < 0xF0 then some (3, 0x80, 0xBF)
  else if b = 0xF0 then some (4, 0x90, 0xBF)
  else if b < 0xF4 then some (4, 0x80, 0xBF)
  else if b = 0xF4 then some (4, 0x80, 0x8F)
  else none

/-- The function `utf8.DecodeRuneInString`: the first rune of `s` and its
width in bytes; `(RuneError, 1)` for an invalid encoding, `(RuneError, 0)`
for the empty string.  The masks and shifts of the Go code are written as
`%` and `*` (`s0 & 0x1F` is `s0 % 32`, `x << 6` is `x * 64`). -/
def DecodeRuneInString : GoString → Nat × Nat
  | [] => (RuneError, 0)
  | s0 :: rest =>
    if s0 < 0x80 then (s0, 1)
    else
      match first s0 with
      | none => (RuneError, 1)
      | some (sz, lo, hi) =>
        if rest.length + 1 < sz then (RuneError, 1)
        else
          match rest with
          | [] => (RuneError, 1)
          | s1 :: rest1 =>
            if s1 < lo ∨ hi < s1 then (RuneError, 1)
            else if sz ≤ 2 then (s0 % 32 * 64 + s1 % 64, 2)
            else
              match rest1 with
              | [] => (RuneError, 1)
              | s2 :: rest2 =>
                if s2 < 0x80 ∨ 0xBF < s2 then (RuneError, 1)
                else if sz ≤ 3 then (s0 % 16 * 4096 + s1 % 64 * 64 + s2 % 64, 3)
                else
                  match rest2 with
                  | [] => (RuneError, 1)
                  | s3 :: _ =>
                    if s3 < 0x80 ∨ 0xBF < s3 then (RuneError, 1)
                    else (s0 % 8 * 262144 + s1 % 64 * 4096 + s2 % 64 * 64 + s3 % 64, 4)

/-! ## encoding/json: writing -/

/-- The table `htmlSafeSet` of `encoding/json`: the ASCII bytes a string is
written with unchanged when HTML escaping is on (the default of an
`Encoder`). -/
def htmlSafeSet (b : Nat) : Bool :=
  decide (0x20 ≤ b) && decide (b < 0x80) && b != 0x22 && b != 0x5C && b != 0x3C && b != 0x3E
    && b != 0x26

/-- The digit `"0123456789abcdef"[n]`. -/
def hex (n : Nat) : Nat := if n < 10 then 48 + n else 87 + n

/-- What `encoding/json` writes for an ASCII byte outside `htmlSafeSet` (as
in Go up to 1.21; later versions write the two-character escapes for 0x08 and
0x0C, which denote the same bytes). -/
def escapeByte (b : Nat) : GoString :=
  if b = 0x5C ∨ b = 0x22 then [0x5C, b]
  else if b = 0x0A then [0x5C, 0x6E]
  else if b = 0x0D then [0x5C, 0x72]
  else if b = 0x09 then [0x5C, 0x74]
  else [0x5C, 0x75, 0x30, 0x30, hex (b / 16), hex (b % 16)]

/-- The loop of `encodeState.string` between the two quotes, with HTML
escaping on; `fuel` bounds the number of iterations (each one consumes at
least one byte). -/
def stringLoop : Nat → GoString → GoString
  | 0, _ => []
  | _, [] => []
  | fuel + 1, b :: rest =>
    if b < 0x80 then
      if htmlSafeSet b then b :: stringLoop fuel rest
      else escapeByte b ++ stringLoop fuel rest
    else
      let cs := DecodeRuneInString (b :: rest)
      if cs.1 = RuneError ∧ cs.2 = 1 then
        [0x5C, 0x75, 0x66, 0x66, 0x66, 0x64] ++ stringLoop fuel rest
      else if cs.1 = 0x2028 ∨ cs.1 = 0x2029 then
        [0x5C, 0x75, 0x32, 0x30, 0x32, hex (cs.1 % 16)] ++ stringLoop fuel ((b :: rest).drop cs.2)
      else
        (b :: rest).take cs.2 ++ stringLoop fuel ((b :: rest).drop cs.2)

/-- The JSON string `encoding/json` writes for a Go string
(`encodeState.string` with `escapeHTML` set). -/
def encodeString (s : GoString) : GoString :=
  [0x22] ++ stringLoop s.length s ++ [0x22]

/-- A value held by an `interface{}` as far as `encoding/json` tells values
apart here: a string, a boolean, or a value of a type JSON cannot represent
(a channel, a function). -/
inductive Value where
  | string (s : GoString)
  | bool (b : Bool)
  | unsupported (typeName : GoString)
  deriving DecidableEq, Repr

/-- An error value.  `ErrServerClosed` is the sentinel `http.ErrServerClosed`,
`DeadlineExceeded` is `context.DeadlineExceeded`, `other` is any other error
with its text, `wrap` an error whose `Unwrap` gives `inner`. -/
inductive GoError where
  | ErrServerClosed
  | DeadlineExceeded
  | other (msg : GoString)
  | wrap (msg : GoString) (inner : GoError)
  deriving DecidableEq, Repr

/-- The method `Error()` of an error value. -/
def GoError.Error : GoError → GoString
  | .ErrServerClosed => str "http: Server closed"
  | .DeadlineExceeded => str "context deadline exceeded"
  | .other msg => msg
  | .wrap msg _ => msg

/-- What `encoding/json` writes for one value; an `UnsupportedTypeError` for a
value JSON cannot represent. -/
def encodeValue : Value → Except GoError GoString
  | .string s => .ok (encodeString s)
  | .bool true => .ok (str "true")
  | .bool false => .ok (str "false")
  | .unsupported t => .error (.other (str "json: unsupported type: " ++ t))

/-- Insertion of a map entry into a list of entries sorted by key. -/
def insertEntry (e : GoString × Value) : List (GoString × Value) → List (GoString × Value)
  | [] => [e]
  | x :: xs => if strLE e.1 x.1 then e :: x :: xs else x :: insertEntry e xs

/-- The entries of a map in the order `encoding/json` writes them: sorted by
key. -/
def sortEntries : List (GoString × Value) → List (GoString × Value)
  | [] => []
  | e :: es => insertEntry e (sortEntries es)

/-- The members of a JSON object, `"key":value` separated by commas, as
`mapEncoder.encode` writes them for entries already sorted. -/
def encodeMembers : List (GoString × Value) → Except GoError GoString
  | [] => .ok []
  | [(k, v)] => do
    let ev ← encodeValue v
    pure (encodeString k ++ [0x3A] ++ ev)
  | (k, v) :: e :: es => do
    let ev ← encodeValue v
    let tail ← encodeMembers (e :: es)
    pure (encodeString k ++ [0x3A] ++ ev ++ [0x2C] ++ tail)

/-- The function `json.Marshal` on a map with string keys, given as the list of
its entries: a JSON object with the keys sorted. -/
def marshal (m : List (GoString × Value)) : Except GoError GoString := do
  let ms ← encodeMembers (sortEntries m)
  pure ([0x7B] ++ ms ++ [0x7D])

/-! ## net/http: the response writer -/

/-- How the connection under a response writer answers one `Write` call:
it takes all the bytes, or it takes at most `n` of them and returns `err`. -/
inductive WriteOutcome where
  | ok
  | fail (n : Nat) (err : GoError)
  deriving DecidableEq, Repr

/-- The state of an `http.ResponseWriter`: the header map the handler edits,
whether the status line and header have been committed (`WriteHeader`), the
committed status and header, the body bytes taken so far, and how the
connection answers the coming `Write` calls (once the list is used up every
write succeeds). -/
structure ResponseWriter where
  header : List (GoString × GoString)
  wroteHeader : Bool
  status : Nat
  sentHeader : List (GoString × GoString)
  body : GoString
  conn : List WriteOutcome
  deriving DecidableEq, Repr

/-- The response writer the server hands to a handler: nothing set, nothing
written. -/
def ResponseWriter.fresh (conn : List WriteOutcome) : ResponseWriter :=
  { header := [], wroteHeader := false, status := 0, sentHeader := [], body := [], conn := conn }

/-- The call `w.Header().Set(key, value)` for a key in canonical form. -/
def ResponseWriter.HeaderSet (w : ResponseWriter) (key value : GoString) : ResponseWriter :=
  { w with header := (key, value) :: w.header.filter (fun kv => kv.1 != key) }

/-- The call `Header.Get(key)` on a header map: the value, or the empty string. -/
def headerGet (h : List (GoString × GoString)) (key : GoString) : GoString :=
  match h.find? (fun kv => kv.1 == key) with
  | some kv => kv.2
  | none => []

/-- The method `WriteHeader(code)`: the first call commits the status and the
header map as it is then; a later call changes nothing. -/
def ResponseWriter.WriteHeader (w : ResponseWriter) (code : Nat) : ResponseWriter :=
  if w.wroteHeader then w
  else { w with wroteHeader := true, status := code, sentHeader := w.header }

/-- The value `http.StatusOK`. -/
def StatusOK : Nat := 200

/-- The value `http.StatusInternalServerError`. -/
def StatusInternalServerError : Nat := 500

/-- The method `Write(b)`: "if WriteHeader has not yet been called, Write calls
WriteHeader(http.StatusOK) before writing the data"; then the connection
takes the bytes or fails. -/
def ResponseWriter.Write (w : ResponseWriter) (b : GoString) : ResponseWriter × Option GoError :=
  let w1 := w.WriteHeader StatusOK
  match w1.conn with
  | [] => ({ w1 with body := w1.body ++ b }, none)
  | .ok :: later => ({ w1 with body := w1.body ++ b, conn := later }, none)
  | .fail n err :: later => ({ w1 with body := w1.body ++ b.take n, conn := later }, some err)

/-- The function `http.Error(w, error, code)`: it sets the two headers, calls
`WriteHeader(code)` and writes the text and a newline (`fmt.Fprintln`). -/
def Error (w : ResponseWriter) (error : GoString) (code : Nat) : ResponseWriter :=
  let w1 := w.HeaderSet (str "Content-Type") (str "text/plain; charset=utf-8")
  let w2 := w1.HeaderSet (str "X-Content-Type-Options") (str "nosniff")
  let w3 := w2.WriteHeader code
  (w3.Write (error ++ [0x0A])).1

/-- The call `json.NewEncoder(w).Encode(v)` for a map `v`: marshal `v`; on
an error return it with nothing written; otherwise write the JSON text and a
newline with one `Write` and return that call's error. -/
def Encode (w : ResponseWriter) (v : List (GoString × Value)) : ResponseWriter × Option GoError :=
  match marshal v with
  | .error err => (w, some err)
  | .ok b => w.Write (b ++ [0x0A])

/-! ## The program: `databaseConfigs` -/

/-- The process environment: each variable name is unset or set to a string. -/
abbrev Env := GoString → Option GoString

/-- The function `os.Getenv`: the value of the variable, empty when it is
unset. -/
def Getenv (env : Env) (key : GoString) : GoString :=
  match env key with
  | some v => v
  | none => []

/-- An HTTP request as the router and a handler see it: `path` is
`r.URL.Path`, the decoded path, and `escapedPath` is `r.URL.EscapedPath()`. -/
structure Request where
  method : GoString
  requestURI : GoString
  host : GoString
  urlHost : GoString
  path : GoString
  escapedPath : GoString
  rawQuery : GoString
  header : List (GoString × GoString)
  body : GoString
  deriving DecidableEq, Repr

/-- The values `encoding/json` can write: strings and booleans. -/
def Value.supported : Value → Bool
  | .string _ => true
  | .bool _ => true
  | .unsupported _ => false

/-- How the element `"isPasswordEmpty": password == ""` is held by the map.
The literal is declared `map[string]string` and the element is a boolean
(see `envVarsLiteral`), so the source does not fix the map value the element
becomes: it is left open here, as any function from the boolean to a value
JSON can represent, and what is proved of the handler is proved for every
such function. -/
structure Rendering where
  toValue : Bool → Value
  supported : ∀ b, (toValue b).supported = true

/-- The element held as the boolean itself (a map of `interface{}`). -/
def asBool : Rendering := { toValue := Value.bool, supported := fun _ => rfl }

/-- The function `strconv.FormatBool`. -/
def FormatBool (b : Bool) : GoString := if b then str "true" else str "false"

/-- The element held as the string `strconv.FormatBool` gives (a map of
`string`). -/
def asString : Rendering :=
  { toValue := fun b => Value.string (FormatBool b), supported := fun _ => rfl }

/-- The map literal `envVars` of `databaseConfigs`, entry by entry as written;
the value of the element `isPasswordEmpty` is the boolean `password == ""` as
the rendering `isPasswordEmpty` holds it. -/
def envVars (isPasswordEmpty : Rendering) (env : Env) : List (GoString × Value) :=
  let host := Getenv env (str "HOST_NAME")
  let port := Getenv env (str "PORT")
  let username := Getenv env (str "USERNAME")
  let password := Getenv env (str "PASSWORD")
  let database := Getenv env (str "DATABASE_NAME")
  [ (str "host", .string host),
    (str "port", .string port),
    (str "username", .string username),
    (str "isPasswordEmpty", isPasswordEmpty.toValue (password == [])),
    (str "database", .string database) ]

/-- The handler `databaseConfigs(w, r)`, run in the environment `env`: the
state of `w` when the handler returns. -/
def databaseConfigs (isPasswordEmpty : Rendering) (env : Env) (w : ResponseWriter)
    (_r : Request) : ResponseWriter :=
  let w1 := w.HeaderSet (str "Content-Type") (str "application/json")
  match Encode w1 (envVars isPasswordEmpty env) with
  | (w2, none) => w2
  | (w2, some err) =>
    Error w2 (str "Failed to encode response: " ++ err.Error) StatusInternalServerError

/-- An environment given by the list of its set variables. -/
def envOf (vars : List (String × GoString)) : Env :=
  fun key => (vars.find? (fun kv => str kv.1 == key)).map (fun kv => kv.2)

/-- The environment of the scenario `HOST_NAME=db1, PORT=5432, USERNAME=admin,
PASSWORD=secret, DATABASE_NAME=app`. -/
def scenarioEnv : Env :=
  envOf [("HOST_NAME", str "db1"), ("PORT", str "5432"), ("USERNAME", str "admin"),
    ("PASSWORD", str "secret"), ("DATABASE_NAME", str "app")]

/-- The same scenario with another password. -/
def scenarioEnv2 : Env :=
  envOf [("HOST_NAME", str "db1"), ("PORT", str "5432"), ("USERNAME", str "admin"),
    ("PASSWORD", str "hunter2"), ("DATABASE_NAME", str "app")]

/-- A request with the given method and path, sent to `localhost:9090`; the
path is one that escaping leaves as it is. -/
def requestTo (method path : String) : Request :=
  { method := str method, requestURI := str path, host := str "localhost:9090", urlHost := [],
    path := str path, escapedPath := str path, rawQuery := [], header := [], body := [] }

/-! ## Reading JSON text

What a JSON text means is fixed by a reader written from the JSON grammar
(RFC 8259), for the texts that occur here: an object whose members are strings
and booleans.  `readObject` gives the members in the order of the text. -/

/-- The value of a hexadecimal digit. -/
def hexVal (c : Nat) : Option Nat :=
  if 48 ≤ c ∧ c ≤ 57 then some (c - 48)
  else if 97 ≤ c ∧ c ≤ 102 then some (c - 87)
  else if 65 ≤ c ∧ c ≤ 70 then some (c - 55)
  else none

/-- The byte a two-character escape stands for (the character after the
backslash is given). -/
def unescape (e : Nat) : Option Nat :=
  if e = 0x22 then some 0x22
  else if e = 0x5C then some 0x5C
  else if e = 0x2F then some 0x2F
  else if e = 0x62 then some 0x08
  else if e = 0x66 then some 0x0C
  else if e = 0x6E then some 0x0A
  else if e = 0x72 then some 0x0D
  else if e = 0x74 then some 0x09
  else none

/-- Reads a JSON string from just after its opening quote: the string it
denotes (as UTF-8 bytes) and the text after the closing quote.  An escape
`\uXXXX` of a surrogate is not read. -/
def readString : GoString → Option (GoString × GoString)
  | [] => none
  | b :: rest =>
    if b = 0x22 then some ([], rest)
    else if b = 0x5C then
      match rest with
      | [] => none
      | e :: rest1 =>
        if e = 0x75 then
          match rest1 with
          | h1 :: h2 :: h3 :: h4 :: rest2 =>
            match hexVal h1, hexVal h2, hexVal h3, hexVal h4 with
            | some d1, some d2, some d3, some d4 =>
              let r := ((d1 * 16 + d2) * 16 + d3) * 16 + d4
              if 0xD800 ≤ r ∧ r < 0xE000 then none
              else
                match readString rest2 with
                | some (s, tl) => some (encodeRune r ++ s, tl)
                | none => none
            | _, _, _, _ => none
          | _ => none
        else
          match unescape e with
          | none => none
          | some c =>
            match readString rest1 with
            | some (s, tl) => some (c :: s, tl)
            | none => none
    else if b < 0x20 then none
    else
      match readString rest with
      | some (s, tl) => some (b :: s, tl)
      | none => none

/-- Removes the leading bytes `p` from `s`, when `s` starts with them. -/
def dropLeading : GoString → GoString → Option GoString
  | [], s => some s
  | _ :: _, [] => none
  | p :: ps, b :: bs => if p = b then dropLeading ps bs else none

/-- Reads a JSON value that is a string, `true` or `false`. -/
def readValue (s : GoString) : Option (Value × GoString) :=
  match dropLeading (str "true") s with
  | some tl => some (.bool true, tl)
  | none =>
    match dropLeading (str "false") s with
    | some tl => some (.bool false, tl)
    | none =>
      match s with
      | [] => none
      | b :: rest =>
        if b = 0x22 then
          match readString rest with
          | some (v, tl) => some (.string v, tl)
          | none => none
        else none

/-- Reads the members of a JSON object from the opening quote of a key up
to and including the closing brace. -/
def readMembers : Nat → GoString → Option (List (GoString × Value) × GoString)
  | 0, _ => none
  | _ + 1, [] => none
  | fuel + 1, b :: rest =>
    if b = 0x22 then
      match readString rest with
      | some (k, c :: afterColon) =>
        if c = 0x3A then
          match readValue afterColon with
          | some (v, d :: tl) =>
            if d = 0x2C then
              match readMembers fuel tl with
              | some (ms, tl1) => some ((k, v) :: ms, tl1)
              | none => none
            else if d = 0x7D then some ([(k, v)], tl)
            else none
          | _ => none
        else none
      | _ => none
    else none

/-- JSON white space. -/
def isSpace (b : Nat) : Bool := b == 0x20 || b == 0x09 || b == 0x0A || b == 0x0D

/-- Reads a JSON text that is one object, possibly followed by white space:
its members, key and value, in the order of the text. -/
def readObject (s : GoString) : Option (List (GoString × Value)) :=
  match s with
  | b :: c :: rest =>
    if b = 0x7B then
      if c = 0x7D then (if rest.all isSpace then some [] else none)
      else
        match readMembers s.length (c :: rest) with
        | some (ms, tl) => if tl.all isSpace then some ms else none
        | none => none
    else none
  | _ => none

/-- The loop of `strings.ToValidUTF8(s, "�")` taken byte by byte as
`encoding/json` does: every byte that starts no valid UTF-8 sequence becomes
U+FFFD (EF BF BD), everything else is kept. -/
def coerceLoop : Nat → GoString → GoString
  | 0, _ => []
  | _, [] => []
  | fuel + 1, b :: rest =>
    if b < 0x80 then b :: coerceLoop fuel rest
    else
      let cs := DecodeRuneInString (b :: rest)
      if cs.1 = RuneError ∧ cs.2 = 1 then [0xEF, 0xBF, 0xBD] ++ coerceLoop fuel rest
      else (b :: rest).take cs.2 ++ coerceLoop fuel ((b :: rest).drop cs.2)

/-- A Go string "coerced to valid UTF-8, replacing invalid bytes with the
Unicode replacement rune". -/
def coerceUTF8 (s : GoString) : GoString := coerceLoop s.length s

/-- The loop of `utf8.ValidString`. -/
def validLoop : Nat → GoString → Bool
  | 0, _ => true
  | _, [] => true
  | fuel + 1, b :: rest =>
    if b < 0x80 then validLoop fuel rest
    else
      let cs := DecodeRuneInString (b :: rest)
      if cs.1 = RuneError ∧ cs.2 = 1 then false
      else validLoop fuel ((b :: rest).drop cs.2)

/-- The function `utf8.ValidString`: the string consists entirely of valid
UTF-8 sequences. -/
def ValidString (s : GoString) : Bool := validLoop s.length s

/-- The value a JSON reader gets back for a value `encoding/json` wrote. -/
def coerceValue : Value → Value
  | .string s => .string (coerceUTF8 s)
  | v => v

/-- A map entry as a JSON reader gets it back. -/
def coerceEntry (e : GoString × Value) : GoString × Value := (coerceUTF8 e.1, coerceValue e.2)

/-- Whether the connection takes the next `Write` whole. -/
def ResponseWriter.acceptsNext (w : ResponseWriter) : Bool :=
  match w.conn with
  | .fail _ _ :: _ => false
  | _ => true

/-- The bytes of `b` the connection takes at the next `Write`. -/
def ResponseWriter.taken (w : ResponseWriter) (b : GoString) : GoString :=
  match w.conn with
  | .fail n _ :: _ => b.take n
  | _ => b

/-! ## The declared types of the map literal -/

/-- The Go types that occur in the literal `envVars`; `untypedBool` is the type
of a comparison such as `password == ""`. -/
inductive GoType where
  | string
  | bool
  | untypedBool
  deriving DecidableEq, Repr

/-- Assignability of a value of type `v` to a variable of type `t`: the types
are identical, or an untyped boolean value goes to `bool`. -/
def assignableTo (v t : GoType) : Bool :=
  v == t || (v == .untypedBool && t == .bool)

/-- A composite literal `map[K]V{...}`: the declared key and value types and,
for each element, the key and the type of the value expression. -/
structure MapLiteral where
  keyType : GoType
  valueType : GoType
  elements : List (GoString × GoType)
  deriving DecidableEq, Repr

/-- The literal `envVars := map[string]string{...}` of `databaseConfigs` with
the types of its five value expressions: `host`, `port`, `username` and
`database` are strings (results of `os.Getenv`), `password == ""` is an untyped
boolean. -/
def envVarsLiteral : MapLiteral :=
  { keyType := .string
    valueType := .string
    elements :=
      [ (str "host", .string),
        (str "port", .string),
        (str "username", .string),
        (str "isPasswordEmpty", .untypedBool),
        (str "database", .string) ] }

/-- The rule for a composite literal: every element value must be assignable to
the declared value type. -/
def MapLiteral.typeChecks (l : MapLiteral) : Bool :=
  l.elements.all (fun e => assignableTo e.2 l.valueType)

/-! ## path.Clean and the router -/

/-- The backtracking of `path.Clean` at a `..` element: from write index `w`
step back while `w > dotdot` and the byte at `w` is not a slash. -/
def backtrack (out : GoString) (dotdot : Nat) : Nat → Nat
  | 0 => 0
  | w + 1 => if dotdot < w + 1 ∧ out.getD (w + 1) 0 ≠ 0x2F then backtrack out dotdot w else w + 1

/-- The loop of `path.Clean`: `rem` is the unread rest of the path, `out` the
buffer written so far, `dotdot` the index where `..` must stop; `fuel` bounds
the number of iterations (each one reads at least one byte). -/
def cleanLoop (rooted : Bool) : Nat → GoString → GoString → Nat → GoString
  | 0, _, out, _ => out
  | _ + 1, [], out, _ => out
  | fuel + 1, c :: rem1, out, dotdot =>
    if c = 0x2F then cleanLoop rooted fuel rem1 out dotdot
    else if c = 0x2E ∧ (rem1 = [] ∨ rem1.head? = some 0x2F) then
      cleanLoop rooted fuel rem1 out dotdot
    else if c = 0x2E ∧ rem1.head? = some 0x2E ∧
        (rem1.tail = [] ∨ rem1.tail.head? = some 0x2F) then
      if dotdot < out.length then
        cleanLoop rooted fuel rem1.tail (out.take (backtrack out dotdot (out.length - 1))) dotdot
      else if !rooted then
        let out1 := (if 0 < out.length then out ++ [0x2F] else out) ++ [0x2E, 0x2E]
        cleanLoop rooted fuel rem1.tail out1 out1.length
      else cleanLoop rooted fuel rem1.tail out dotdot
    else
      let out1 :=
        if (rooted ∧ out.length ≠ 1) ∨ (!rooted ∧ out.length ≠ 0) then out ++ [0x2F] else out
      cleanLoop rooted fuel ((c :: rem1).dropWhile (fun x => x != 0x2F))
        (out1 ++ (c :: rem1).takeWhile (fun x => x != 0x2F)) dotdot

/-- The function `path.Clean`. -/
def Clean (path : GoString) : GoString :=
  match path with
  | [] => str "."
  | c :: rest =>
    let out :=
      if c = 0x2F then cleanLoop true path.length rest [0x2F] 1
      else cleanLoop false path.length path [] 0
    if out.length = 0 then str "." else out

/-- The function `cleanPath` of `net/http`: the canonical form of a request
path, a trailing slash kept. -/
def cleanPath (p : GoString) : GoString :=
  if p = [] then str "/"
  else
    let p := if p.head? ≠ some 0x2F then str "/" ++ p else p
    let np := Clean p
    if p.getLast? = some 0x2F ∧ np ≠ str "/" then
      if p.length = np.length + 1 ∧ np.isPrefixOf p then p else np ++ str "/"
    else np

/-- The handlers a `ServeMux` of this program can select. -/
inductive Handler where
  | databaseConfigs
  | NotFoundHandler
  | RedirectHandler (path rawQuery : GoString) (code : Nat)
  deriving DecidableEq, Repr

/-- An `http.ServeMux`: the registered patterns with their handlers, the
patterns ending in a slash from longest to shortest, and whether a pattern
names a host. -/
structure ServeMux where
  m : List (GoString × Handler)
  es : List (GoString × Handler)
  hosts : Bool
  deriving DecidableEq, Repr

/-- The function `http.NewServeMux`. -/
def NewServeMux : ServeMux := { m := [], es := [], hosts := false }

/-- Insertion into the list `es`, kept sorted from the longest pattern to the
shortest (`appendSorted`). -/
def appendSorted (es : List (GoString × Handler)) (e : GoString × Handler) :
    List (GoString × Handler) :=
  match es with
  | [] => [e]
  | x :: xs => if x.1.length < e.1.length then e :: x :: xs else x :: appendSorted xs e

/-- The method `ServeMux.HandleFunc(pattern, handler)` for a pattern that is
not empty and not yet registered. -/
def ServeMux.HandleFunc (mux : ServeMux) (pattern : GoString) (h : Handler) : ServeMux :=
  { m := (pattern, h) :: mux.m
    es := if pattern.getLast? = some 0x2F then appendSorted mux.es (pattern, h) else mux.es
    hosts := mux.hosts || decide (pattern.head? ≠ some 0x2F) }

/-- The method `ServeMux.match`: an exact match first, then the longest
registered pattern ending in a slash that is a prefix of the path. -/
def ServeMux.matchPath (mux : ServeMux) (path : GoString) : Option (Handler × GoString) :=
  match mux.m.find? (fun e => e.1 == path) with
  | some e => some (e.2, e.1)
  | none =>
    match mux.es.find? (fun e => e.1.isPrefixOf path) with
    | some e => some (e.2, e.1)
    | none => none

/-- The method `ServeMux.handler(host, path)`: the handler for the path, the
not-found handler when no pattern matches. -/
def ServeMux.handler (mux : ServeMux) (host path : GoString) : Handler × GoString :=
  let r := if mux.hosts then mux.matchPath (host ++ path) else none
  match (match r with
    | some x => some x
    | none => mux.matchPath path) with
  | some x => x
  | none => (.NotFoundHandler, [])

/-- The method `ServeMux.shouldRedirectRLocked`: the path is not registered but
the path with a slash added is. -/
def ServeMux.shouldRedirectRLocked (mux : ServeMux) (host path : GoString) : Bool :=
  let p := [path, host ++ path]
  if p.any (fun c => mux.m.any (fun e => e.1 == c)) then false
  else if path.length = 0 then false
  else if p.any (fun c => mux.m.any (fun e => e.1 == c ++ str "/")) then
    path.getLast? != some 0x2F
  else false

/-- The function `stripHostPort`: the host without a port (for a host that is
not an IPv6 literal in brackets; the result matters only to patterns that name
a host). -/
def stripHostPort (h : GoString) : GoString :=
  if h.contains 0x3A then h.takeWhile (fun x => x != 0x3A) else h

/-- The method `ServeMux.Handler(r)` of Go up to 1.21: the handler to use for
the request and the pattern it matched.  A `CONNECT` request is looked up as
it is; any other request whose path `r.URL.Path` is not in canonical form is
redirected to that form with `StatusMovedPermanently`. -/
def ServeMux.Handler (mux : ServeMux) (r : Request) : Handler × GoString :=
  if r.method = str "CONNECT" then
    if mux.shouldRedirectRLocked r.urlHost r.path then
      (.RedirectHandler (r.path ++ str "/") r.rawQuery 301, r.path ++ str "/")
    else mux.handler r.host r.path
  else
    let host := stripHostPort r.host
    let path := cleanPath r.path
    if mux.shouldRedirectRLocked host path then
      (.RedirectHandler (path ++ str "/") r.rawQuery 301, path ++ str "/")
    else if path ≠ r.path then
      (.RedirectHandler path r.rawQuery 301, (mux.handler host path).2)
    else mux.handler host r.path

/-- The function `url.PathUnescape`: every `%XY` becomes the byte it names;
`none` for a `%` that two hexadecimal digits do not follow. -/
def PathUnescape : GoString → Option GoString
  | [] => some []
  | c :: rest =>
    if c = 0x25 then
      match rest with
      | a :: b :: rest2 =>
        match hexVal a, hexVal b with
        | some x, some y =>
          match PathUnescape rest2 with
          | some u => some ((x * 16 + y) :: u)
          | none => none
        | _, _ => none
      | _ => none
    else
      match PathUnescape rest with
      | some u => some (c :: u)
      | none => none

/-- The function `pathUnescape` of `net/http`: the segment unescaped, or as it
is when it cannot be unescaped. -/
def pathUnescape (s : GoString) : GoString :=
  match PathUnescape s with
  | some u => u
  | none => s

/-- The function `firstSegment` of `net/http` (Go 1.22): the first segment of
a path, unescaped, and the rest of the path; the segment of the path `/` is
`/`. -/
def firstSegment (path : GoString) : GoString × GoString :=
  if path = str "/" then (str "/", [])
  else
    (pathUnescape ((path.drop 1).takeWhile (fun x => x != 0x2F)),
      (path.drop 1).dropWhile (fun x => x != 0x2F))

/-- The segments `routingNode.matchPath` walks through: `firstSegment` taken
again and again until the path is used up. -/
def pathSegments : Nat → GoString → List GoString
  | 0, _ => []
  | fuel + 1, path =>
    if path = [] then []
    else (firstSegment path).1 :: pathSegments fuel (firstSegment path).2

/-- The match of the routing tree of Go 1.22 for patterns that are plain
paths not ending in a slash (no host, no method, no wildcard, as the one
pattern of this program is): the pattern with the segments of the path. -/
def ServeMux.matchSegments (mux : ServeMux) (path : GoString) :
    Option (DatabaseConnectionTest.Handler × GoString) :=
  match mux.m.find? (fun e => pathSegments e.1.length e.1 == pathSegments path.length path) with
  | some e => some (e.2, e.1)
  | none => none

/-- The method `ServeMux.findHandler(r)` of Go since 1.22, for a mux whose
patterns are plain paths not ending in a slash, with the status code
`redirectCode` of its redirect.  It works on the escaped path: a `CONNECT`
request is looked up as it is; any other request whose escaped path is not in
canonical form is redirected to that form. -/
def ServeMux.findHandler (mux : ServeMux) (redirectCode : Nat) (r : Request) :
    DatabaseConnectionTest.Handler × GoString :=
  if r.method = str "CONNECT" then
    match mux.matchSegments r.escapedPath with
    | some x => x
    | none => (.NotFoundHandler, [])
  else
    let path := cleanPath r.escapedPath
    let n :=
      match mux.matchSegments path with
      | some x => x
      | none => (.NotFoundHandler, [])
    if path ≠ r.escapedPath then (.RedirectHandler path r.rawQuery redirectCode, n.2)
    else n

/-- What the source does not pin and `ServeMux` depends on: the Go toolchain.
Up to Go 1.21 the mux works on `r.URL.Path` and redirects with 301
(`ServeMux.Handler`); since Go 1.22 it works on `r.URL.EscapedPath()`
(`ServeMux.findHandler`), and the status code of its redirect to the
canonical path, 301 at first, is left open. -/
inductive Toolchain where
  | upTo121
  | since122 (redirectCode : Nat)
  deriving DecidableEq, Repr

/-- The status code of the redirect to the canonical path. -/
def Toolchain.redirectCode : Toolchain → Nat
  | .upTo121 => 301
  | .since122 code => code

/-- The path the mux works on. -/
def Toolchain.seen (tc : Toolchain) (r : Request) : GoString :=
  match tc with
  | .upTo121 => r.path
  | .since122 _ => r.escapedPath

/-- What `ServeMux.ServeHTTP` does with a request: it answers 400 itself when
the request URI is `*`, otherwise it runs the handler it selects. -/
inductive Dispatch where
  | badRequest
  | run (h : Handler)
  deriving DecidableEq, Repr

/-- The method `ServeMux.ServeHTTP(w, r)`, up to the choice of the handler
that is run. -/
def ServeMux.ServeHTTP (tc : Toolchain) (mux : ServeMux) (r : Request) : Dispatch :=
  if r.requestURI = str "*" then .badRequest
  else
    match tc with
    | .upTo121 => .run (mux.Handler r).1
    | .since122 code => .run (mux.findHandler code r).1

/-- What a request built by the server satisfies: the escaped path decodes to
the path, and it is empty or starts with a slash. -/
def Request.wellFormed (r : Request) : Bool :=
  PathUnescape r.escapedPath == some r.path &&
    (r.escapedPath == [] || r.escapedPath.head? == some 0x2F)

/-- The function `http.NotFound(w, r)`, the reply of the not-found handler. -/
def NotFound (w : ResponseWriter) : ResponseWriter :=
  Error w (str "404 page not found") 404

/-- The router `serverMux` built in `main`: one call of `HandleFunc`. -/
def serverMux : ServeMux :=
  NewServeMux.HandleFunc (str "/database-configs") .databaseConfigs

/-! ## The program: `main` -/

/-- The function `errors.Is(err, target)` for a non-nil target: some error
in the chain of `err` is the target. -/
def errorsIsChain : GoError → GoError → Bool
  | .wrap msg inner, target =>
    decide (GoError.wrap msg inner = target) || errorsIsChain inner target
  | e, target => decide (e = target)

/-- The function `errors.Is` on a possibly nil error. -/
def errorsIs (err : Option GoError) (target : GoError) : Bool :=
  match err with
  | none => false
  | some e => errorsIsChain e target

/-- The text `%v` gives for an error value. -/
def formatError : Option GoError → GoString
  | none => str "<nil>"
  | some e => e.Error

/-- What the process does that can be seen from outside: a line written by
`log`, a call of `server.Shutdown` with a context of the given deadline, and
the end of the process with an exit code. -/
inductive Event where
  | log (line : GoString)
  | shutdown (deadline : Nat)
  | exit (code : Nat)
  deriving DecidableEq, Repr

/-- The function `log.Fatalf`: the line is logged and `os.Exit(1)` is called. -/
def Fatalf (line : GoString) : List Event := [.log line, .exit 1]

/-- The background task of `main` once `server.ListenAndServe` has returned
`err`: the events of the task from then on. -/
def serveTask (err : Option GoError) : List Event :=
  if !errorsIs err .ErrServerClosed then
    Fatalf (str "HTTP ListenAndServe error: " ++ formatError err)
  else [.log (str "HTTP server stopped serving new requests.")]

/-- The signals `main` asks for with `signal.Notify(stopCh, ...)`. -/
inductive Signal where
  | SIGINT
  | SIGTERM
  deriving DecidableEq, Repr

/-- The duration `time.Second`, in nanoseconds. -/
def Second : Nat := 1000000000

/-- The main thread of `main` from the receive `<-stopCh` on.  `signal` is
what the channel delivers (`none`: no signal ever comes and `main` stays
blocked), `now` the time at which `main`, having taken the signal, calls
`context.WithTimeout`, and `Shutdown deadline` the error `server.Shutdown`
returns for a context with that deadline.  Returning from `main` ends the
process with code 0. -/
def main (signal : Option Signal) (now : Nat) (Shutdown : Nat → Option GoError) : List Event :=
  match signal with
  | none => []
  | some _ =>
    let shutdownCtx := now + 10 * Second
    [.log (str "Shutting down the server..."), .shutdown shutdownCtx] ++
      match Shutdown shutdownCtx with
      | some err => Fatalf (str "HTTP shutdown error: " ++ formatError (some err))
      | none => [.log (str "Shutdown complete."), .exit 0]

/-- Whether an event is a call of `server.Shutdown`. -/
def Event.isShutdown : Event → Bool
  | .shutdown _ => true
  | _ => false

/-- The error a failed bind gives: a `*net.OpError` around the system error. -/
def bindError : GoError :=
  .wrap (str "listen tcp :9090: bind: address already in use")
    (.other (str "address already in use"))

/-- The writer of the encode-error example: the connection takes no byte of
the first `Write` and returns `write: broken pipe`; later writes succeed. -/
def brokenWriter : ResponseWriter :=
  ResponseWriter.fresh [.fail 0 (.other (str "write: broken pipe"))]

/-- The exit code of a run, when the process ends: the code of its first
`exit` event. -/
def exitCode (events : List Event) : Option Nat :=
  events.findSome? (fun e => match e with
    | .exit c => some c
    | _ => none)

/-- The events of two threads merged by a schedule: `true` lets the first
thread take its next step, `false` the second; a thread with no step left
leaves the turn to the other. -/
def interleave : List Bool → List Event → List Event → List Event
  | _, [], ys => ys
  | _, x :: xs, [] => x :: xs
  | [], x :: xs, y :: ys => x :: xs ++ y :: ys
  | true :: s, x :: xs, y :: ys => x :: interleave s xs (y :: ys)
  | false :: s, x :: xs, y :: ys => y :: interleave s (x :: xs) ys


/-! ## Lemmas: UTF-8 decoding and reading back JSON strings -/

theorem hexVal_hex (n : Nat) (h : n < 16) : hexVal (hex n) = some n := by
  interval_cases n <;> rfl

theorem encodeRune_ascii (b : Nat) (h : b < 0x80) : encodeRune b = [b] := by
  simp [encodeRune, h]

theorem first_spec (b : Nat) :
    first b = none ∨ ∃ sz lo hi, first b = some (sz, lo, hi) ∧ 0x80 ≤ lo ∧ hi ≤ 0xBF ∧
      ((sz = 2 ∧ 0xC2 ≤ b ∧ b < 0xE0) ∨
       (sz = 3 ∧ 0xE0 ≤ b ∧ b < 0xF0 ∧ (b = 0xE0 → 0xA0 ≤ lo) ∧ (b = 0xED → hi ≤ 0x9F)) ∨
       (sz = 4 ∧ 0xF0 ≤ b ∧ b ≤ 0xF4 ∧ (b = 0xF0 → 0x90 ≤ lo) ∧ (b = 0xF4 → hi ≤ 0x8F))) := by
  by_cases h1 : b < 0xC2
  · left; simp [first, h1]
  by_cases h2 : b < 0xE0
  · right
    exact ⟨2, 0x80, 0xBF, by simp [first, h1, h2], by omega, by omega, by omega⟩
  by_cases h3 : b = 0xE0
  · right
    exact ⟨3, 0xA0, 0xBF, by simp [first, h3], by omega, by omega, by omega⟩
  by_cases h4 : b < 0xED
  · right
    exact ⟨3, 0x80, 0xBF, by simp [first, h1, h2, h3, h4], by omega, by omega, by omega⟩
  by_cases h5 : b = 0xED
  · right
    exact ⟨3, 0x80, 0x9F, by simp [first, h5], by omega, by omega, by omega⟩
  by_cases h6 : b < 0xF0
  · right
    exact ⟨3, 0x80, 0xBF, by simp [first, h1, h2, h3, h4, h5, h6], by omega, by omega, by omega⟩
  by_cases h7 : b = 0xF0
  · right
    exact ⟨4, 0x90, 0xBF, by simp [first, h7], by omega, by omega, by omega⟩
  by_cases h8 : b < 0xF4
  · right
    exact ⟨4, 0x80, 0xBF, by simp [first, h1, h2, h3, h4, h5, h6, h7, h8],
      by omega, by omega, by omega⟩
  by_cases h9 : b = 0xF4
  · right
    exact ⟨4, 0x80, 0x8F, by simp [first, h9], by omega, by omega, by omega⟩
  · left; simp [first, h1, h2, h3, h4, h5, h6, h7, h8, h9]

/-- The shapes `DecodeRuneInString` can return on a string whose first byte
is 0x80 or more. -/
theorem decode_cases (b : Nat) (rest : GoString) (hb : 0x80 ≤ b) :
    DecodeRuneInString (b :: rest) = (RuneError, 1) ∨
    (∃ s1 r1, rest = s1 :: r1 ∧ 0x80 ≤ s1 ∧ s1 ≤ 0xBF ∧ 0xC2 ≤ b ∧ b < 0xE0 ∧
      DecodeRuneInString (b :: rest) = (b % 32 * 64 + s1 % 64, 2)) ∨
    (∃ s1 s2 r2, rest = s1 :: s2 :: r2 ∧ 0x80 ≤ s1 ∧ s1 ≤ 0xBF ∧ 0x80 ≤ s2 ∧ s2 ≤ 0xBF ∧
      0xE0 ≤ b ∧ b < 0xF0 ∧ (b = 0xE0 → 0xA0 ≤ s1) ∧ (b = 0xED → s1 ≤ 0x9F) ∧
      DecodeRuneInString (b :: rest) = (b % 16 * 4096 + s1 % 64 * 64 + s2 % 64, 3)) ∨
    (∃ s1 s2 s3 r3, rest = s1 :: s2 :: s3 :: r3 ∧ 0x80 ≤ s1 ∧ s1 ≤ 0xBF ∧ 0x80 ≤ s2 ∧
      s2 ≤ 0xBF ∧ 0x80 ≤ s3 ∧ s3 ≤ 0xBF ∧ 0xF0 ≤ b ∧ b ≤ 0xF4 ∧ (b = 0xF0 → 0x90 ≤ s1) ∧
      (b = 0xF4 → s1 ≤ 0x8F) ∧
      DecodeRuneInString (b :: rest) =
        (b % 8 * 262144 + s1 % 64 * 4096 + s2 % 64 * 64 + s3 % 64, 4)) := by
  have hb' : ¬ b < 0x80 := by omega
  rcases first_spec b with hf | ⟨sz, lo, hi, hf, hlo, hhi, hsz⟩
  · left; simp only [DecodeRuneInString, if_neg hb', hf]
  · rcases hsz with ⟨rfl, h1, h2⟩ | ⟨rfl, h1, h2, h3, h4⟩ | ⟨rfl, h1, h2, h3, h4⟩
    · rcases rest with _ | ⟨s1, r1⟩
      · left; simp [DecodeRuneInString, if_neg hb', hf]
      · by_cases hr : s1 < lo ∨ hi < s1
        · left; simp [DecodeRuneInString, if_neg hb', hf, hr]
        · right; left
          refine ⟨s1, r1, rfl, by omega, by omega, h1, h2, ?_⟩
          simp [DecodeRuneInString, if_neg hb', hf, hr]
    · rcases rest with _ | ⟨s1, _ | ⟨s2, r2⟩⟩
      · left; simp [DecodeRuneInString, if_neg hb', hf]
      · left; simp [DecodeRuneInString, if_neg hb', hf]
      · by_cases hr : s1 < lo ∨ hi < s1
        · left; simp [DecodeRuneInString, if_neg hb', hf, hr]
        · by_cases hr2 : s2 < 0x80 ∨ 0xBF < s2
          · left; simp [DecodeRuneInString, if_neg hb', hf, hr, hr2]
          · right; right; left
            refine ⟨s1, s2, r2, rfl, by omega, by omega, by omega, by omega, h1, h2,
              by omega, by omega, ?_⟩
            simp [DecodeRuneInString, if_neg hb', hf, hr, hr2]
    · rcases rest with _ | ⟨s1, _ | ⟨s2, _ | ⟨s3, r3⟩⟩⟩
      · left; simp [DecodeRuneInString, if_neg hb', hf]
      · left; simp [DecodeRuneInString, if_neg hb', hf]
      · left; simp [DecodeRuneInString, if_neg hb', hf]
      · by_cases hr : s1 < lo ∨ hi < s1
        · left; simp [DecodeRuneInString, if_neg hb', hf, hr]
        · by_cases hr2 : s2 < 0x80 ∨ 0xBF < s2
          · left; simp [DecodeRuneInString, if_neg hb', hf, hr, hr2]
          · by_cases hr3 : s3 < 0x80 ∨ 0xBF < s3
            · left; simp [DecodeRuneInString, if_neg hb', hf, hr, hr2, hr3]
            · right; right; right
              refine ⟨s1, s2, s3, r3, rfl, by omega, by omega, by omega, by omega, by omega,
                by omega, h1, h2, by omega, by omega, ?_⟩
              simp [DecodeRuneInString, if_neg hb', hf, hr, hr2, hr3]

theorem readString_plain (b : Nat) (X s tl : GoString) (h1 : b ≠ 0x22) (h2 : b ≠ 0x5C)
    (h3 : 0x20 ≤ b) (hX : readString X = some (s, tl)) :
    readString (b :: X) = some (b :: s, tl) := by
  have h3' : ¬ b < 0x20 := by omega
  rw [readString.eq_def]
  simp [h1, h2, h3', hX]

theorem readString_raw (l X s tl : GoString) (hl : ∀ x ∈ l, 0x80 ≤ x)
    (hX : readString X = some (s, tl)) :
    readString (l ++ X) = some (l ++ s, tl) := by
  induction l with
  | nil => simpa using hX
  | cons a l ih =>
    have ha : 0x80 ≤ a := hl a (List.mem_cons_self _ _)
    have := ih (fun x hx => hl x (List.mem_cons_of_mem _ hx))
    simpa using readString_plain a (l ++ X) (l ++ s) tl (by omega) (by omega) (by omega) this

theorem readString_u (d1 d2 d3 d4 : Nat) (X s tl : GoString) (h1 : d1 < 16) (h2 : d2 < 16)
    (h3 : d3 < 16) (h4 : d4 < 16)
    (hs : ¬ (0xD800 ≤ ((d1 * 16 + d2) * 16 + d3) * 16 + d4 ∧
      ((d1 * 16 + d2) * 16 + d3) * 16 + d4 < 0xE000))
    (hX : readString X = some (s, tl)) :
    readString ([0x5C, 0x75, hex d1, hex d2, hex d3, hex d4] ++ X) =
      some (encodeRune (((d1 * 16 + d2) * 16 + d3) * 16 + d4) ++ s, tl) := by
  rw [readString.eq_def]
  simp only [List.cons_append, List.nil_append, hexVal_hex _ h1, hexVal_hex _ h2,
    hexVal_hex _ h3, hexVal_hex _ h4, hX]
  simp [hs]

theorem readString_unescape (e c : Nat) (X s tl : GoString) (he : e ≠ 0x75)
    (hc : unescape e = some c) (hX : readString X = some (s, tl)) :
    readString (0x5C :: e :: X) = some (c :: s, tl) := by
  rw [readString.eq_def]
  simp [he, hc, hX]

theorem readString_escapeByte (b : Nat) (X s tl : GoString) (hb : b < 0x80)
    (hX : readString X = some (s, tl)) :
    readString (escapeByte b ++ X) = some (b :: s, tl) := by
  by_cases h1 : b = 0x5C
  · subst h1; exact readString_unescape _ _ X s tl (by decide) (by decide) hX
  by_cases h2 : b = 0x22
  · subst h2; exact readString_unescape _ _ X s tl (by decide) (by decide) hX
  by_cases h3 : b = 0x0A
  · subst h3; exact readString_unescape _ _ X s tl (by decide) (by decide) hX
  by_cases h4 : b = 0x0D
  · subst h4; exact readString_unescape _ _ X s tl (by decide) (by decide) hX
  by_cases h5 : b = 0x09
  · subst h5; exact readString_unescape _ _ X s tl (by decide) (by decide) hX
  have he : escapeByte b = [0x5C, 0x75, hex 0, hex 0, hex (b / 16), hex (b % 16)] := by
    simp [escapeByte, h1, h2, h3, h4, h5, hex]
  rw [he, readString_u 0 0 (b / 16) (b % 16) X s tl (by omega) (by omega) (by omega) (by omega)
    (by omega) hX]
  have hr : ((0 * 16 + 0) * 16 + b / 16) * 16 + b % 16 = b := by omega
  rw [hr, encodeRune_ascii b hb]
  rfl

theorem readString_replacement (X s tl : GoString) (hX : readString X = some (s, tl)) :
    readString ([0x5C, 0x75, 0x66, 0x66, 0x66, 0x64] ++ X) =
      some ([0xEF, 0xBF, 0xBD] ++ s, tl) :=
  readString_u 15 15 15 13 X s tl (by decide) (by decide) (by decide) (by decide)
    (by decide) hX

theorem readString_separator (r : Nat) (X s tl : GoString) (hr : r = 0x2028 ∨ r = 0x2029)
    (hX : readString X = some (s, tl)) :
    readString ([0x5C, 0x75, 0x32, 0x30, 0x32, hex (r % 16)] ++ X) =
      some ([0xE2, 0x80, 0x80 + r % 64] ++ s, tl) := by
  rcases hr with rfl | rfl
  · exact readString_u 2 0 2 8 X s tl (by decide) (by decide) (by decide) (by decide)
      (by decide) hX
  · exact readString_u 2 0 2 9 X s tl (by decide) (by decide) (by decide) (by decide)
      (by decide) hX

theorem htmlSafeSet_true (b : Nat) (h : htmlSafeSet b = true) :
    b ≠ 0x22 ∧ b ≠ 0x5C ∧ 0x20 ≤ b := by
  simp [htmlSafeSet] at h
  omega

theorem rune2_not_separator (b s1 : Nat) :
    ¬ (b % 32 * 64 + s1 % 64 = 0x2028 ∨ b % 32 * 64 + s1 % 64 = 0x2029) := by
  have hx : b % 32 < 32 := Nat.mod_lt _ (by decide)
  have hy : s1 % 64 < 64 := Nat.mod_lt _ (by decide)
  generalize b % 32 = x at *
  generalize s1 % 64 = y at *
  omega

theorem rune4_not_separator (b s1 s2 s3 : Nat) (h1 : 0xF0 ≤ b) (h2 : b ≤ 0xF4)
    (h3 : 0x80 ≤ s1) (h4 : s1 ≤ 0xBF) (h5 : b = 0xF0 → 0x90 ≤ s1) :
    ¬ (b % 8 * 262144 + s1 % 64 * 4096 + s2 % 64 * 64 + s3 % 64 = 0x2028 ∨
      b % 8 * 262144 + s1 % 64 * 4096 + s2 % 64 * 64 + s3 % 64 = 0x2029) := by
  have hx : b % 8 = b - 0xF0 := by omega
  have hy : s1 % 64 = s1 - 0x80 := by omega
  rw [hx, hy]
  generalize s2 % 64 = y
  generalize s3 % 64 = z
  omega

theorem rune3_separator (b s1 s2 : Nat) (h1 : 0xE0 ≤ b) (h2 : b < 0xF0) (h3 : 0x80 ≤ s1)
    (h4 : s1 ≤ 0xBF) (h5 : 0x80 ≤ s2) (h6 : s2 ≤ 0xBF)
    (h : b % 16 * 4096 + s1 % 64 * 64 + s2 % 64 = 0x2028 ∨
      b % 16 * 4096 + s1 % 64 * 64 + s2 % 64 = 0x2029) :
    b = 0xE2 ∧ s1 = 0x80 ∧ s2 = 0x80 + (b % 16 * 4096 + s1 % 64 * 64 + s2 % 64) % 64 := by
  have hx : b % 16 = b - 0xE0 := by omega
  have hy : s1 % 64 = s1 - 0x80 := by omega
  have hz : s2 % 64 = s2 - 0x80 := by omega
  rw [hx, hy, hz] at h ⊢
  omega

/-- Reading back what `encodeState.string` wrote between the quotes gives the
string coerced to valid UTF-8, and stops after the closing quote. -/
theorem readString_stringLoop (fuel : Nat) :
    ∀ (s X : GoString), s.length ≤ fuel →
      readString (stringLoop fuel s ++ 0x22 :: X) = some (coerceLoop fuel s, X) := by
  induction fuel with
  | zero =>
    intro s X h
    rw [readString.eq_def]
    simp [stringLoop, coerceLoop]
  | succ fuel ih =>
    intro s X h
    rcases s with _ | ⟨b, rest⟩
    · rw [readString.eq_def]
      simp [stringLoop, coerceLoop]
    have hrest : rest.length ≤ fuel := by simpa using h
    by_cases hb : b < 0x80
    · by_cases hsafe : htmlSafeSet b = true
      · obtain ⟨h1, h2, h3⟩ := htmlSafeSet_true b hsafe
        simp only [stringLoop, coerceLoop, if_pos hb, hsafe, if_true, List.cons_append]
        exact readString_plain b _ _ _ h1 h2 h3 (ih rest X hrest)
      · have hsafe' : htmlSafeSet b = false := by simpa using hsafe
        simp only [stringLoop, coerceLoop, if_pos hb, hsafe', Bool.false_eq_true, if_false,
          List.append_assoc]
        exact readString_escapeByte b _ _ _ hb (ih rest X hrest)
    · have hb' : 0x80 ≤ b := by omega
      rcases decode_cases b rest hb' with hd | ⟨s1, r1, rfl, a1, a2, a3, a4, hd⟩ |
        ⟨s1, s2, r2, rfl, a1, a2, a3, a4, a5, a6, a7, a8, hd⟩ |
        ⟨s1, s2, s3, r3, rfl, a1, a2, a3, a4, a5, a6, a7, a8, a9, a10, hd⟩
      · simp only [stringLoop, coerceLoop, if_neg hb, hd, and_self, if_true,
          List.append_assoc]
        exact readString_replacement _ _ _ (ih rest X hrest)
      · have hlen : r1.length ≤ fuel := by simp at hrest; omega
        have c1 : ¬ (b % 32 * 64 + s1 % 64 = RuneError ∧ 2 = 1) := by simp
        have c2 := rune2_not_separator b s1
        simp only [stringLoop, coerceLoop, if_neg hb, hd, if_neg c1, if_neg c2,
          List.append_assoc]
        exact readString_raw [b, s1] _ _ _
          (by intro x hx; simp only [List.mem_cons, List.mem_singleton, List.not_mem_nil,
            or_false] at hx; rcases hx with rfl | rfl <;> omega) (ih r1 X hlen)
      · have hlen : r2.length ≤ fuel := by simp at hrest; omega
        have c1 : ¬ (b % 16 * 4096 + s1 % 64 * 64 + s2 % 64 = RuneError ∧ 3 = 1) := by simp
        by_cases c2 : b % 16 * 4096 + s1 % 64 * 64 + s2 % 64 = 0x2028 ∨
            b % 16 * 4096 + s1 % 64 * 64 + s2 % 64 = 0x2029
        · simp only [stringLoop, coerceLoop, if_neg hb, hd, if_neg c1, if_pos c2,
            List.append_assoc]
          obtain ⟨e1, e2, e3⟩ := rune3_separator b s1 s2 a5 a6 a1 a2 a3 a4 c2
          have := readString_separator _ _ _ _ c2 (ih r2 X hlen)
          rw [← e3] at this
          subst e1 e2
          simpa using this
        · simp only [stringLoop, coerceLoop, if_neg hb, hd, if_neg c1, if_neg c2,
            List.append_assoc]
          exact readString_raw [b, s1, s2] _ _ _
            (by intro x hx; simp only [List.mem_cons, List.mem_singleton, List.not_mem_nil,
              or_false] at hx; rcases hx with rfl | rfl | rfl <;> omega) (ih r2 X hlen)
      · have hlen : r3.length ≤ fuel := by simp at hrest; omega
        have c1 : ¬ (b % 8 * 262144 + s1 % 64 * 4096 + s2 % 64 * 64 + s3 % 64 = RuneError ∧
            4 = 1) := by simp
        have c2 := rune4_not_separator b s1 s2 s3 a7 a8 a1 a2 a9
        simp only [stringLoop, coerceLoop, if_neg hb, hd, if_neg c1, if_neg c2,
          List.append_assoc]
        exact readString_raw [b, s1, s2, s3] _ _ _
          (by intro x hx; simp only [List.mem_cons, List.mem_singleton, List.not_mem_nil,
            or_false] at hx; rcases hx with rfl | rfl | rfl | rfl <;> omega) (ih r3 X hlen)

theorem readString_encodeString (s X : GoString) :
    readString (stringLoop s.length s ++ 0x22 :: X) = some (coerceUTF8 s, X) :=
  readString_stringLoop s.length s X (Nat.le_refl _)

/-! ## Lemmas: reading back a marshalled map -/

theorem dropLeading_append (p Y : GoString) : dropLeading p (p ++ Y) = some Y := by
  induction p with
  | nil => cases Y <;> rfl
  | cons a p ih => simp [dropLeading, ih]

theorem str_true : str "true" = [0x74, 0x72, 0x75, 0x65] := by decide

theorem str_false : str "false" = [0x66, 0x61, 0x6C, 0x73, 0x65] := by decide

theorem readString_encodeString_append (s X : GoString) :
    ∃ t, encodeString s ++ X = 0x22 :: t ∧ readString t = some (coerceUTF8 s, X) := by
  refine ⟨stringLoop s.length s ++ 0x22 :: X, ?_, readString_encodeString s X⟩
  simp [encodeString]

/-- Reading back a value `encoding/json` wrote. -/
theorem readValue_encodeValue (v : Value) (hv : v.supported = true) (X : GoString) :
    ∃ ev, encodeValue v = .ok ev ∧ readValue (ev ++ X) = some (coerceValue v, X) := by
  rcases v with s | b | t
  · obtain ⟨t, ht, hr⟩ := readString_encodeString_append s X
    refine ⟨encodeString s, rfl, ?_⟩
    rw [ht]
    simp [readValue, str_true, str_false, dropLeading, hr, coerceValue]
  · cases b
    · refine ⟨str "false", rfl, ?_⟩
      have h1 : dropLeading (str "true") (str "false" ++ X) = none := by
        simp [str_true, str_false, dropLeading]
      simp [readValue, h1, dropLeading_append, coerceValue]
    · refine ⟨str "true", rfl, ?_⟩
      simp [readValue, dropLeading_append, coerceValue]
  · simp [Value.supported] at hv

theorem encodeMembers_cons_cons (k : GoString) (v : Value) (e : GoString × Value)
    (es : List (GoString × Value)) (ev tail : GoString) (hv : encodeValue v = .ok ev)
    (ht : encodeMembers (e :: es) = .ok tail) :
    encodeMembers ((k, v) :: e :: es) = .ok (encodeString k ++ [0x3A] ++ ev ++ [0x2C] ++ tail) := by
  simp [encodeMembers, hv, ht, bind, Except.bind, pure, Except.pure]

theorem encodeMembers_single (k : GoString) (v : Value) (ev : GoString)
    (hv : encodeValue v = .ok ev) :
    encodeMembers [(k, v)] = .ok (encodeString k ++ [0x3A] ++ ev) := by
  simp [encodeMembers, hv, bind, Except.bind, pure, Except.pure]

theorem readMembers_member (fuel : Nat) (k : GoString) (v : Value) (hv : v.supported = true)
    (ev : GoString) (he : encodeValue v = .ok ev) (d : Nat) (X : GoString) :
    readMembers (fuel + 1) (encodeString k ++ [0x3A] ++ ev ++ d :: X) =
      if d = 0x2C then
        match readMembers fuel X with
        | some (ms, tl1) => some ((coerceUTF8 k, coerceValue v) :: ms, tl1)
        | none => none
      else if d = 0x7D then some ([(coerceUTF8 k, coerceValue v)], X)
      else none := by
  obtain ⟨ev', he', hr⟩ := readValue_encodeValue v hv (d :: X)
  rw [he] at he'
  cases he'
  obtain ⟨t, ht, hs⟩ := readString_encodeString_append k (0x3A :: (ev ++ d :: X))
  have : encodeString k ++ [0x3A] ++ ev ++ d :: X = 0x22 :: t := by
    rw [← ht]; simp
  rw [this]
  simp [readMembers, hs, hr]

/-- Reading back the members `mapEncoder.encode` wrote. -/
theorem readMembers_encodeMembers (es : List (GoString × Value)) :
    es ≠ [] → (∀ e ∈ es, e.2.supported = true) → ∀ (fuel : Nat), es.length ≤ fuel →
      ∀ X : GoString, ∃ text, encodeMembers es = .ok text ∧
        readMembers fuel (text ++ 0x7D :: X) = some (es.map coerceEntry, X) := by
  induction es with
  | nil => intro h; exact absurd rfl h
  | cons e es ih =>
    intro _ hsup fuel hfuel X
    obtain ⟨k, v⟩ := e
    have hv : v.supported = true := hsup (k, v) (List.mem_cons_self _ _)
    obtain ⟨ev, he, _⟩ := readValue_encodeValue v hv []
    obtain ⟨fuel, rfl⟩ : ∃ f, fuel = f + 1 := ⟨fuel - 1, by simp at hfuel; omega⟩
    rcases es with _ | ⟨e2, es⟩
    · refine ⟨_, encodeMembers_single k v ev he, ?_⟩
      rw [readMembers_member fuel k v hv ev he]
      simp [coerceEntry]
    · have hlen : (e2 :: es).length ≤ fuel := by simp at hfuel ⊢; omega
      obtain ⟨tail, ht, hr⟩ := ih (by simp)
        (fun x hx => hsup x (List.mem_cons_of_mem _ hx)) fuel hlen X
      refine ⟨_, encodeMembers_cons_cons k v e2 es ev tail he ht, ?_⟩
      have : encodeString k ++ [0x3A] ++ ev ++ [0x2C] ++ tail ++ 0x7D :: X =
          encodeString k ++ [0x3A] ++ ev ++ 0x2C :: (tail ++ 0x7D :: X) := by simp
      rw [this, readMembers_member fuel k v hv ev he, if_pos rfl, hr]
      simp [coerceEntry]

theorem encodeMembers_length (es : List (GoString × Value)) :
    ∀ text, encodeMembers es = .ok text → es.length ≤ text.length := by
  induction es with
  | nil => intro text _; simp
  | cons e es ih =>
    intro text h
    obtain ⟨k, v⟩ := e
    rcases es with _ | ⟨e2, es⟩
    · cases hv : encodeValue v with
      | error err => simp [encodeMembers, hv, bind, Except.bind] at h
      | ok ev =>
        rw [encodeMembers_single k v ev hv] at h
        cases h
        simp
        omega
    · cases hv : encodeValue v with
      | error err => simp [encodeMembers, hv, bind, Except.bind] at h
      | ok ev =>
        cases ht : encodeMembers (e2 :: es) with
        | error err => simp [encodeMembers, hv, ht, bind, Except.bind] at h
        | ok tail =>
          rw [encodeMembers_cons_cons k v e2 es ev tail hv ht] at h
          cases h
          have := ih tail ht
          simp at this ⊢
          omega

theorem encodeMembers_head (es : List (GoString × Value)) (hne : es ≠ []) (text : GoString)
    (h : encodeMembers es = .ok text) : ∃ t, text = 0x22 :: t := by
  rcases es with _ | ⟨⟨k, v⟩, _ | ⟨e2, es⟩⟩
  · exact absurd rfl hne
  · cases hv : encodeValue v with
    | error err => simp [encodeMembers, hv, bind, Except.bind] at h
    | ok ev =>
      rw [encodeMembers_single k v ev hv] at h
      cases h
      exact ⟨_, by simp [encodeString]; rfl⟩
  · cases hv : encodeValue v with
    | error err => simp [encodeMembers, hv, bind, Except.bind] at h
    | ok ev =>
      cases ht : encodeMembers (e2 :: es) with
      | error err => simp [encodeMembers, hv, ht, bind, Except.bind] at h
      | ok tail =>
        rw [encodeMembers_cons_cons k v e2 es ev tail hv ht] at h
        cases h
        exact ⟨_, by simp [encodeString]; rfl⟩

theorem sortEntries_supported (m : List (GoString × Value))
    (h : ∀ e ∈ m, e.2.supported = true) : ∀ e ∈ sortEntries m, e.2.supported = true := by
  have hins : ∀ (x : GoString × Value) (l : List (GoString × Value)),
      ∀ e ∈ insertEntry x l, e = x ∨ e ∈ l := by
    intro x l
    induction l with
    | nil => intro e he; simpa [insertEntry] using he
    | cons y l ih =>
      intro e he
      simp only [insertEntry] at he
      split at he
      · simpa using he
      · rcases List.mem_cons.1 he with rfl | h'
        · simp
        · rcases ih e h' with rfl | hl
          · simp
          · right; exact List.mem_cons_of_mem _ hl
  induction m with
  | nil => intro e he; simp [sortEntries] at he
  | cons x m ih =>
    intro e he
    rcases hins x _ e he with rfl | h'
    · exact h _ (List.mem_cons_self _ _)
    · exact ih (fun e he => h e (List.mem_cons_of_mem _ he)) e h'

theorem sortEntries_ne_nil (m : List (GoString × Value)) (h : m ≠ []) : sortEntries m ≠ [] := by
  rcases m with _ | ⟨x, m⟩
  · exact absurd rfl h
  · simp only [sortEntries]
    cases sortEntries m with
    | nil => simp [insertEntry]
    | cons y l => simp only [insertEntry]; split <;> simp

/-- Marshalling a map whose values are strings and booleans succeeds, and a
JSON reader gets back the entries sorted by key, every string coerced to valid
UTF-8. -/
theorem readObject_marshal (m : List (GoString × Value))
    (h : ∀ e ∈ m, e.2.supported = true) :
    ∃ text, marshal m = .ok text ∧
      readObject (text ++ [0x0A]) = some ((sortEntries m).map coerceEntry) := by
  by_cases hm : m = []
  · subst hm
    exact ⟨[0x7B, 0x7D], rfl, by decide⟩
  · have hne := sortEntries_ne_nil m hm
    have hsup := sortEntries_supported m h
    obtain ⟨ms, hms, _⟩ := readMembers_encodeMembers (sortEntries m) hne hsup
      (sortEntries m).length (Nat.le_refl _) []
    obtain ⟨t, rfl⟩ := encodeMembers_head _ hne ms hms
    have hlen := encodeMembers_length _ _ hms
    obtain ⟨ms', hms', hr⟩ := readMembers_encodeMembers (sortEntries m) hne hsup
      ((0x7B :: 0x22 :: (t ++ [0x7D, 0x0A])).length)
      (by simp only [List.length_cons, List.length_append] at hlen ⊢; omega) [0x0A]
    rw [hms] at hms'
    cases hms'
    refine ⟨[0x7B] ++ (0x22 :: t) ++ [0x7D], ?_, ?_⟩
    · simp [marshal, hms, bind, Except.bind, pure, Except.pure]
    · have e1 : [0x7B] ++ (0x22 :: t) ++ [0x7D] ++ [0x0A] =
          0x7B :: 0x22 :: (t ++ [0x7D, 0x0A]) := by simp
      have e2 : (0x22 :: t) ++ 0x7D :: [0x0A] = 0x22 :: (t ++ [0x7D, 0x0A]) := by simp
      rw [e2] at hr
      rw [e1]
      simp only [readObject]
      rw [hr]
      simp [isSpace]

theorem decode_size_pos (b : Nat) (rest : GoString) (hb : 0x80 ≤ b) :
    1 ≤ (DecodeRuneInString (b :: rest)).2 := by
  rcases decode_cases b rest hb with hd | ⟨_, _, _, _, _, _, _, hd⟩ |
    ⟨_, _, _, _, _, _, _, _, _, _, _, _, hd⟩ |
    ⟨_, _, _, _, _, _, _, _, _, _, _, _, _, _, _, hd⟩ <;> rw [hd] <;> simp

/-- A string that is valid UTF-8 is not changed by the coercion. -/
theorem coerceLoop_of_valid (fuel : Nat) :
    ∀ s : GoString, s.length ≤ fuel → validLoop fuel s = true → coerceLoop fuel s = s := by
  induction fuel with
  | zero =>
    intro s h _
    have : s = [] := List.length_eq_zero.1 (Nat.le_zero.1 h)
    subst this
    rfl
  | succ fuel ih =>
    intro s h hv
    rcases s with _ | ⟨b, rest⟩
    · rfl
    have hrest : rest.length ≤ fuel := by simpa using h
    by_cases hb : b < 0x80
    · simp only [validLoop, if_pos hb] at hv
      simp only [coerceLoop, if_pos hb, ih rest hrest hv]
    · have hpos := decode_size_pos b rest (by omega)
      simp only [validLoop, if_neg hb] at hv
      simp only [coerceLoop, if_neg hb]
      split at hv
      · exact absurd hv (by simp)
      · rename_i hc
        rw [if_neg hc]
        have hlen : ((b :: rest).drop (DecodeRuneInString (b :: rest)).2).length ≤ fuel := by
          simp only [List.length_drop, List.length_cons]
          omega
        rw [ih _ hlen hv, List.take_append_drop]

theorem coerceUTF8_of_valid (s : GoString) (h : ValidString s = true) : coerceUTF8 s = s :=
  coerceLoop_of_valid s.length s (Nat.le_refl _) h

/-! ## Lemmas: the response writer and the handler -/

theorem sortEntries_envVars (p : Rendering) (env : Env) :
    sortEntries (envVars p env) =
      [ (str "database", .string (Getenv env (str "DATABASE_NAME"))),
        (str "host", .string (Getenv env (str "HOST_NAME"))),
        (str "isPasswordEmpty", p.toValue (Getenv env (str "PASSWORD") == [])),
        (str "port", .string (Getenv env (str "PORT"))),
        (str "username", .string (Getenv env (str "USERNAME"))) ] := rfl

theorem envVars_supported (p : Rendering) (env : Env) :
    ∀ e ∈ envVars p env, e.2.supported = true := by
  intro e he
  simp only [envVars, List.mem_cons, List.mem_singleton, List.not_mem_nil, or_false] at he
  rcases he with rfl | rfl | rfl | rfl | rfl
  · rfl
  · rfl
  · rfl
  · exact p.supported _
  · rfl

theorem Write_body (w : ResponseWriter) (b : GoString) :
    (w.Write b).1.body = w.body ++ w.taken b := by
  unfold ResponseWriter.Write ResponseWriter.taken ResponseWriter.WriteHeader
  by_cases h : w.wroteHeader = true
  · simp only [h, if_true]
    rcases hc : w.conn with _ | ⟨o, later⟩
    · simp
    · cases o <;> simp
  · simp only [h]
    rcases hc : w.conn with _ | ⟨o, later⟩
    · simp [hc]
    · cases o <;> simp [hc]

theorem Write_error (w : ResponseWriter) (b : GoString) :
    (w.Write b).2 = none ↔ w.acceptsNext = true := by
  unfold ResponseWriter.Write ResponseWriter.acceptsNext ResponseWriter.WriteHeader
  by_cases h : w.wroteHeader = true
  · simp only [h, if_true]
    rcases hc : w.conn with _ | ⟨o, later⟩
    · simp
    · cases o <;> simp
  · simp only [h]
    rcases hc : w.conn with _ | ⟨o, later⟩
    · simp [hc]
    · cases o <;> simp [hc]

theorem Write_fields (w : ResponseWriter) (b : GoString) :
    (w.Write b).1.wroteHeader = true ∧
    (w.Write b).1.status = (if w.wroteHeader then w.status else StatusOK) ∧
    (w.Write b).1.sentHeader = (if w.wroteHeader then w.sentHeader else w.header) ∧
    (w.Write b).1.header = w.header ∧
    (w.Write b).1.conn = w.conn.tail := by
  unfold ResponseWriter.Write ResponseWriter.WriteHeader
  by_cases h : w.wroteHeader = true
  · simp only [h, if_true]
    rcases hc : w.conn with _ | ⟨o, later⟩
    · simp [h]
    · cases o <;> simp [h]
  · simp only [h]
    rcases hc : w.conn with _ | ⟨o, later⟩
    · simp [hc]
    · cases o <;> simp [hc]

theorem Error_fields (w : ResponseWriter) (msg : GoString) (code : Nat)
    (h : w.wroteHeader = true) :
    (Error w msg code).status = w.status ∧ (Error w msg code).sentHeader = w.sentHeader ∧
    (Error w msg code).body = w.body ++ w.taken (msg ++ [0x0A]) := by
  have hw : ((w.HeaderSet (str "Content-Type") (str "text/plain; charset=utf-8")).HeaderSet
      (str "X-Content-Type-Options") (str "nosniff")).WriteHeader code =
      (w.HeaderSet (str "Content-Type") (str "text/plain; charset=utf-8")).HeaderSet
      (str "X-Content-Type-Options") (str "nosniff") := by
    simp [ResponseWriter.WriteHeader, ResponseWriter.HeaderSet, h]
  unfold Error
  simp only [hw]
  obtain ⟨_, h2, h3, _, _⟩ := Write_fields ((w.HeaderSet (str "Content-Type")
    (str "text/plain; charset=utf-8")).HeaderSet (str "X-Content-Type-Options") (str "nosniff"))
    (msg ++ [0x0A])
  refine ⟨?_, ?_, ?_⟩
  · rw [h2]; simp [ResponseWriter.HeaderSet, h]
  · rw [h3]; simp [ResponseWriter.HeaderSet, h]
  · rw [Write_body]; simp [ResponseWriter.HeaderSet, ResponseWriter.taken]

theorem headerGet_cons (k v : GoString) (h : List (GoString × GoString)) :
    headerGet ((k, v) :: h) k = v := by
  simp [headerGet, List.find?]

theorem marshal_envVars (p : Rendering) (env : Env) :
    ∃ text, marshal (envVars p env) = .ok text ∧
      readObject (text ++ [0x0A]) = some ((sortEntries (envVars p env)).map coerceEntry) :=
  readObject_marshal (envVars p env) (envVars_supported p env)

/-- The handler in terms of the one `Write` of the encoder: the marshalled map
and a newline go to the writer; if that `Write` fails, `http.Error` follows. -/
theorem databaseConfigs_eq (p : Rendering) (env : Env) (w : ResponseWriter) (r : Request)
    (text : GoString) (hm : marshal (envVars p env) = .ok text) :
    Encode (w.HeaderSet (str "Content-Type") (str "application/json")) (envVars p env) =
      (w.HeaderSet (str "Content-Type") (str "application/json")).Write (text ++ [0x0A]) ∧
    databaseConfigs p env w r =
      match (w.HeaderSet (str "Content-Type") (str "application/json")).Write (text ++ [0x0A]) with
      | (w2, none) => w2
      | (w2, some err) =>
        Error w2 (str "Failed to encode response: " ++ err.Error) StatusInternalServerError := by
  have he : Encode (w.HeaderSet (str "Content-Type") (str "application/json")) (envVars p env) =
      (w.HeaderSet (str "Content-Type") (str "application/json")).Write (text ++ [0x0A]) := by
    simp [Encode, hm]
  refine ⟨he, ?_⟩
  unfold databaseConfigs
  simp only [he]

/-- When the connection takes the encoder's write, the handler is that write:
no error, and the body grows by the marshalled map and a newline. -/
theorem databaseConfigs_of_accepts (p : Rendering) (env : Env) (w : ResponseWriter)
    (r : Request) (text : GoString) (hm : marshal (envVars p env) = .ok text)
    (ha : w.acceptsNext = true) :
    (Encode (w.HeaderSet (str "Content-Type") (str "application/json")) (envVars p env)).2 =
      none ∧
    databaseConfigs p env w r =
      (Encode (w.HeaderSet (str "Content-Type") (str "application/json")) (envVars p env)).1 ∧
    (databaseConfigs p env w r).body = w.body ++ (text ++ [0x0A]) := by
  obtain ⟨he, hd⟩ := databaseConfigs_eq p env w r text hm
  have ha' : (w.HeaderSet (str "Content-Type") (str "application/json")).acceptsNext = true := ha
  have hnone := (Write_error (w.HeaderSet (str "Content-Type") (str "application/json"))
    (text ++ [0x0A])).2 ha'
  have hbody := Write_body (w.HeaderSet (str "Content-Type") (str "application/json"))
    (text ++ [0x0A])
  have htaken : (w.HeaderSet (str "Content-Type") (str "application/json")).taken
      (text ++ [0x0A]) = text ++ [0x0A] := by
    unfold ResponseWriter.acceptsNext at ha'
    unfold ResponseWriter.taken
    split <;> simp_all
  rw [hd, he]
  rcases hW : (w.HeaderSet (str "Content-Type") (str "application/json")).Write
    (text ++ [0x0A]) with ⟨w2, e⟩
  rw [hW] at hnone hbody
  simp only at hnone hbody
  subst hnone
  refine ⟨rfl, rfl, ?_⟩
  simp only
  rw [hbody, htaken]
  rfl

/-- The object a JSON reader gets from the body when the connection takes the
write, for every rendering of the `isPasswordEmpty` element. -/
theorem databaseConfigs_readObject (p : Rendering) (env : Env) (w : ResponseWriter)
    (r : Request) (hb : w.body = []) (ha : w.acceptsNext = true) :
    readObject (databaseConfigs p env w r).body =
      some [ (str "database", .string (coerceUTF8 (Getenv env (str "DATABASE_NAME")))),
        (str "host", .string (coerceUTF8 (Getenv env (str "HOST_NAME")))),
        (str "isPasswordEmpty", coerceValue (p.toValue (Getenv env (str "PASSWORD") == []))),
        (str "port", .string (coerceUTF8 (Getenv env (str "PORT")))),
        (str "username", .string (coerceUTF8 (Getenv env (str "USERNAME")))) ] := by
  obtain ⟨text, hm, hr⟩ := marshal_envVars p env
  rw [(databaseConfigs_of_accepts p env w r text hm ha).2.2, hb, List.nil_append, hr,
    sortEntries_envVars]
  have k1 : coerceUTF8 (str "database") = str "database" := by decide
  have k2 : coerceUTF8 (str "host") = str "host" := by decide
  have k3 : coerceUTF8 (str "isPasswordEmpty") = str "isPasswordEmpty" := by decide
  have k4 : coerceUTF8 (str "port") = str "port" := by decide
  have k5 : coerceUTF8 (str "username") = str "username" := by decide
  simp only [List.map, coerceEntry, coerceValue, k1, k2, k3, k4, k5]

/-- On a writer with no header committed, the encoder's `Write` commits status
200 and the Content-Type `application/json`, whether or not the connection
takes the bytes; a later `WriteHeader` does not change them. -/
theorem databaseConfigs_committed (p : Rendering) (env : Env) (w : ResponseWriter)
    (r : Request) (hw : w.wroteHeader = false) :
    (databaseConfigs p env w r).status = StatusOK ∧
    headerGet (databaseConfigs p env w r).sentHeader (str "Content-Type") =
      str "application/json" := by
  obtain ⟨text, hm, _⟩ := marshal_envVars p env
  obtain ⟨_, hd⟩ := databaseConfigs_eq p env w r text hm
  have hw1 : (w.HeaderSet (str "Content-Type") (str "application/json")).wroteHeader = false := hw
  obtain ⟨f1, f2, f3, _, _⟩ := Write_fields
    (w.HeaderSet (str "Content-Type") (str "application/json")) (text ++ [0x0A])
  rw [hw1] at f2 f3
  simp only [Bool.false_eq_true, if_false] at f2 f3
  have hget : headerGet (w.HeaderSet (str "Content-Type") (str "application/json")).header
      (str "Content-Type") = str "application/json" := headerGet_cons _ _ _
  refine ⟨?_, ?_⟩
  · rw [hd]
    rcases hW : (w.HeaderSet (str "Content-Type") (str "application/json")).Write
      (text ++ [0x0A]) with ⟨w2, _ | e⟩
    · rw [hW] at f2; exact f2
    · rw [hW] at f1 f2
      simp only
      rw [(Error_fields w2 _ _ f1).1]; exact f2
  · rw [hd]
    rcases hW : (w.HeaderSet (str "Content-Type") (str "application/json")).Write
      (text ++ [0x0A]) with ⟨w2, _ | e⟩
    · rw [hW] at f3
      simp only at f3 ⊢
      rw [f3]; exact hget
    · rw [hW] at f1 f3
      simp only at f3 ⊢
      rw [(Error_fields w2 _ _ f1).2.1, f3]; exact hget

/-- On `brokenWriter` the encoder's `Write` fails with nothing taken, for every
rendering and environment: `http.Error` runs and the body is its text. -/
theorem databaseConfigs_broken (p : Rendering) (env : Env) (r : Request) :
    (Encode (brokenWriter.HeaderSet (str "Content-Type") (str "application/json"))
      (envVars p env)).2 = some (.other (str "write: broken pipe")) ∧
    (databaseConfigs p env brokenWriter r).body =
      str "Failed to encode response: write: broken pipe\n" := by
  obtain ⟨text, hm, _⟩ := marshal_envVars p env
  obtain ⟨he, hd⟩ := databaseConfigs_eq p env brokenWriter r text hm
  have hW : (brokenWriter.HeaderSet (str "Content-Type") (str "application/json")).Write
      (text ++ [0x0A]) =
      ({ header := [(str "Content-Type", str "application/json")], wroteHeader := true,
          status := StatusOK, sentHeader := [(str "Content-Type", str "application/json")],
          body := [], conn := [] }, some (.other (str "write: broken pipe"))) := by
    simp [ResponseWriter.Write, ResponseWriter.WriteHeader, ResponseWriter.HeaderSet,
      brokenWriter, ResponseWriter.fresh]
  refine ⟨by rw [he, hW], ?_⟩
  rw [hd, hW]
  decide

/-! ## The claims about `databaseConfigs` -/

/-- C1, as the code has it: for every environment and request, however the
`isPasswordEmpty` element is held, when the connection takes the write the
body of the response is a JSON object with exactly the keys database, host,
isPasswordEmpty, port and username; host, port, username and database are the
values of HOST_NAME, PORT, USERNAME and DATABASE_NAME (empty when unset)
coerced to valid UTF-8, hence the values themselves whenever those are valid
UTF-8. -/
theorem databaseConfigs_body_object (p : Rendering) (env : Env) (conn : List WriteOutcome)
    (r : Request) (ha : (ResponseWriter.fresh conn).acceptsNext = true) :
    (∃ member,
      readObject (databaseConfigs p env (ResponseWriter.fresh conn) r).body =
        some [ (str "database", .string (coerceUTF8 (Getenv env (str "DATABASE_NAME")))),
          (str "host", .string (coerceUTF8 (Getenv env (str "HOST_NAME")))),
          (str "isPasswordEmpty", member),
          (str "port", .string (coerceUTF8 (Getenv env (str "PORT")))),
          (str "username", .string (coerceUTF8 (Getenv env (str "USERNAME")))) ]) ∧
    (∀ name, env name = none → Getenv env name = []) ∧
    (∀ name, ValidString (Getenv env name) = true →
      coerceUTF8 (Getenv env name) = Getenv env name) := by
  refine ⟨⟨_, databaseConfigs_readObject p env (ResponseWriter.fresh conn) r rfl ha⟩, ?_,
    fun name h => coerceUTF8_of_valid _ h⟩
  intro name h
  simp [Getenv, h]

/-- C1, witness: the scenario environment, a connection that takes every
write, the element held as a string. -/
theorem databaseConfigs_body_object_witness :
    (ResponseWriter.fresh []).acceptsNext = true ∧
    ∃ member,
      readObject (databaseConfigs asString scenarioEnv (ResponseWriter.fresh [])
        (requestTo "GET" "/database-configs")).body =
        some [ (str "database", .string (coerceUTF8 (Getenv scenarioEnv (str "DATABASE_NAME")))),
          (str "host", .string (coerceUTF8 (Getenv scenarioEnv (str "HOST_NAME")))),
          (str "isPasswordEmpty", member),
          (str "port", .string (coerceUTF8 (Getenv scenarioEnv (str "PORT")))),
          (str "username", .string (coerceUTF8 (Getenv scenarioEnv (str "USERNAME")))) ] :=
  ⟨rfl, (databaseConfigs_body_object asString scenarioEnv []
    (requestTo "GET" "/database-configs") rfl).1⟩

/-- C1 as stated fails, however the `isPasswordEmpty` element is held.  With
`HOST_NAME` set to the single byte 0xFF (not valid UTF-8) no reading of the
body has the value of the variable as its `host` member (it is U+FFFD, EF BF
BD); and on `brokenWriter`, whose connection fails the write, the body is not
a JSON object at all. -/
theorem databaseConfigs_host_not_verbatim :
    Getenv (envOf [("HOST_NAME", [0xFF])]) (str "HOST_NAME") = [0xFF] ∧
    (¬ ∃ p : Rendering, ∃ obj,
      readObject (databaseConfigs p (envOf [("HOST_NAME", [0xFF])]) (ResponseWriter.fresh [])
        (requestTo "GET" "/database-configs")).body = some obj ∧
      obj.lookup (str "host") = some (.string [0xFF])) ∧
    (¬ ∃ p : Rendering,
      readObject (databaseConfigs p scenarioEnv brokenWriter
        (requestTo "GET" "/database-configs")).body ≠ none) := by
  refine ⟨by decide, ?_, ?_⟩
  · rintro ⟨p, obj, h1, h2⟩
    rw [databaseConfigs_readObject p (envOf [("HOST_NAME", [0xFF])]) (ResponseWriter.fresh [])
      (requestTo "GET" "/database-configs") rfl rfl] at h1
    cases h1
    have e1 : (str "host" == str "database") = false := by decide
    have e2 : (str "host" == str "host") = true := by decide
    have e3 : Getenv (envOf [("HOST_NAME", [0xFF])]) (str "HOST_NAME") = [0xFF] := by decide
    have e4 : coerceUTF8 [0xFF] = [0xEF, 0xBF, 0xBD] := by decide
    simp [List.lookup, e1, e2, e3, e4] at h2
  · rintro ⟨p, h⟩
    rw [(databaseConfigs_broken p scenarioEnv _).2] at h
    exact h (by decide)

/-- C2: the literal `envVars` does not type-check: it is declared
`map[string]string`, and its element `isPasswordEmpty`, the untyped boolean
`password == ""`, is the one element not assignable to `string`. -/
theorem envVarsLiteral_rejected :
    envVarsLiteral.typeChecks = false ∧
    envVarsLiteral.valueType = GoType.string ∧
    envVarsLiteral.elements.filter (fun e => !assignableTo e.2 envVarsLiteral.valueType) =
      [(str "isPasswordEmpty", GoType.untypedBool)] := by
  decide

/-- C3: however the `isPasswordEmpty` element is held, two environments that
agree on HOST_NAME, PORT, USERNAME and DATABASE_NAME and whose PASSWORD values
are both non-empty give the same writer state (status, headers, body) for
every writer and request. -/
theorem databaseConfigs_password_hidden (p : Rendering) (env1 env2 : Env)
    (w : ResponseWriter) (r : Request)
    (hh : Getenv env1 (str "HOST_NAME") = Getenv env2 (str "HOST_NAME"))
    (hp : Getenv env1 (str "PORT") = Getenv env2 (str "PORT"))
    (hu : Getenv env1 (str "USERNAME") = Getenv env2 (str "USERNAME"))
    (hd : Getenv env1 (str "DATABASE_NAME") = Getenv env2 (str "DATABASE_NAME"))
    (h1 : Getenv env1 (str "PASSWORD") ≠ []) (h2 : Getenv env2 (str "PASSWORD") ≠ []) :
    databaseConfigs p env1 w r = databaseConfigs p env2 w r := by
  have e1 : (Getenv env1 (str "PASSWORD") == []) = false := by
    cases h : Getenv env1 (str "PASSWORD") with
    | nil => exact absurd h h1
    | cons a l => rfl
  have e2 : (Getenv env2 (str "PASSWORD") == []) = false := by
    cases h : Getenv env2 (str "PASSWORD") with
    | nil => exact absurd h h2
    | cons a l => rfl
  have hv : envVars p env1 = envVars p env2 := by
    simp only [envVars, hh, hp, hu, hd, e1, e2]
  unfold databaseConfigs
  rw [hv]

/-- C3, witness: the scenario with the passwords `secret` and `hunter2`, the
element held as a string. -/
theorem databaseConfigs_password_hidden_witness :
    Getenv scenarioEnv (str "PASSWORD") ≠ Getenv scenarioEnv2 (str "PASSWORD") ∧
    databaseConfigs asString scenarioEnv (ResponseWriter.fresh [])
        (requestTo "GET" "/database-configs") =
      databaseConfigs asString scenarioEnv2 (ResponseWriter.fresh [])
        (requestTo "GET" "/database-configs") :=
  ⟨by decide, databaseConfigs_password_hidden asString scenarioEnv scenarioEnv2
    (ResponseWriter.fresh []) (requestTo "GET" "/database-configs") (by decide) (by decide)
    (by decide) (by decide) (by decide) (by decide)⟩

/-- The body in the scenario environment on a fresh writer, for every
rendering: the keys in sorted order, the text `encoding/json` writes for the
`isPasswordEmpty` element in its place, and a final newline. -/
theorem databaseConfigs_scenario_text (p : Rendering) :
    ∃ member, encodeValue (p.toValue false) = .ok member ∧
      (databaseConfigs p scenarioEnv (ResponseWriter.fresh [])
        (requestTo "GET" "/database-configs")).body =
        str "\x7b\"database\":\"app\",\"host\":\"db1\",\"isPasswordEmpty\":" ++ member ++
          str ",\"port\":\"5432\",\"username\":\"admin\"\x7d\n" := by
  obtain ⟨ev, hev, _⟩ := readValue_encodeValue (p.toValue false) (p.supported false) []
  refine ⟨ev, hev, ?_⟩
  have g1 : Getenv scenarioEnv (str "DATABASE_NAME") = str "app" := by decide
  have g2 : Getenv scenarioEnv (str "HOST_NAME") = str "db1" := by decide
  have g3 : (Getenv scenarioEnv (str "PASSWORD") == []) = false := by decide
  have g4 : Getenv scenarioEnv (str "PORT") = str "5432" := by decide
  have g5 : Getenv scenarioEnv (str "USERNAME") = str "admin" := by decide
  have hA : str "\x7b\"database\":\"app\",\"host\":\"db1\",\"isPasswordEmpty\":" =
      [0x7B] ++ (encodeString (str "database") ++ [0x3A] ++ encodeString (str "app") ++ [0x2C] ++
        (encodeString (str "host") ++ [0x3A] ++ encodeString (str "db1") ++ [0x2C] ++
          (encodeString (str "isPasswordEmpty") ++ [0x3A]))) := by decide
  have hB : str ",\"port\":\"5432\",\"username\":\"admin\"\x7d\n" =
      [0x2C] ++ (encodeString (str "port") ++ [0x3A] ++ encodeString (str "5432") ++ [0x2C] ++
        (encodeString (str "username") ++ [0x3A] ++ encodeString (str "admin"))) ++ [0x7D] ++
        [0x0A] := by decide
  have hm : marshal (envVars p scenarioEnv) =
      .ok ([0x7B] ++ (encodeString (str "database") ++ [0x3A] ++ encodeString (str "app") ++
        [0x2C] ++ (encodeString (str "host") ++ [0x3A] ++ encodeString (str "db1") ++ [0x2C] ++
          (encodeString (str "isPasswordEmpty") ++ [0x3A] ++ ev ++ [0x2C] ++
            (encodeString (str "port") ++ [0x3A] ++ encodeString (str "5432") ++ [0x2C] ++
              (encodeString (str "username") ++ [0x3A] ++ encodeString (str "admin")))))) ++
        [0x7D]) := by
    have es : ∀ s, encodeValue (.string s) = .ok (encodeString s) := fun _ => rfl
    simp only [marshal, sortEntries_envVars, g1, g2, g3, g4, g5, encodeMembers, es, hev,
      bind, Except.bind, pure, Except.pure]
  rw [(databaseConfigs_of_accepts p scenarioEnv (ResponseWriter.fresh [])
    (requestTo "GET" "/database-configs") _ hm rfl).2.2, hA, hB]
  simp only [ResponseWriter.fresh, List.nil_append, List.append_assoc, List.cons_append]

/-- C4, as the code has it: in the scenario environment the body is the object
with its keys in sorted order (database, host, isPasswordEmpty, port,
username), followed by one newline; the `isPasswordEmpty` member is the text
`encoding/json` writes for the element as the map holds it, `false` for the
boolean and `"false"` for its string form. -/
theorem databaseConfigs_scenario_body (p : Rendering) :
    (∃ member, encodeValue (p.toValue false) = .ok member ∧
      (databaseConfigs p scenarioEnv (ResponseWriter.fresh [])
        (requestTo "GET" "/database-configs")).body =
        str "\x7b\"database\":\"app\",\"host\":\"db1\",\"isPasswordEmpty\":" ++ member ++
          str ",\"port\":\"5432\",\"username\":\"admin\"\x7d\n") ∧
    encodeValue (asBool.toValue false) = .ok (str "false") ∧
    encodeValue (asString.toValue false) = .ok (str "\"false\"") :=
  ⟨databaseConfigs_scenario_text p, rfl, rfl⟩

/-- C4 as stated fails: however the `isPasswordEmpty` element is held, the
body is not the text with the keys in the order host, port, username,
isPasswordEmpty, database and nothing after the brace. -/
theorem databaseConfigs_scenario_body_not_literal_order :
    ¬ ∃ p : Rendering,
      (databaseConfigs p scenarioEnv (ResponseWriter.fresh [])
        (requestTo "GET" "/database-configs")).body =
        str ("\x7b\"host\":\"db1\",\"port\":\"5432\",\"username\":\"admin\"," ++
          "\"isPasswordEmpty\":false,\"database\":\"app\"\x7d") := by
  rintro ⟨p, h⟩
  obtain ⟨ev, _, hbody⟩ := databaseConfigs_scenario_text p
  rw [hbody] at h
  have hA : str "\x7b\"database\":\"app\",\"host\":\"db1\",\"isPasswordEmpty\":" =
      [0x7B, 0x22, 0x64] ++ str "atabase\":\"app\",\"host\":\"db1\",\"isPasswordEmpty\":" := by
    decide
  have hC : str ("\x7b\"host\":\"db1\",\"port\":\"5432\",\"username\":\"admin\"," ++
      "\"isPasswordEmpty\":false,\"database\":\"app\"\x7d") =
      [0x7B, 0x22, 0x68] ++ str ("ost\":\"db1\",\"port\":\"5432\",\"username\":\"admin\"," ++
        "\"isPasswordEmpty\":false,\"database\":\"app\"\x7d") := by
    decide
  rw [hA, hC] at h
  simp at h

/-- C5, as the code has it: for every environment and request, however the
`isPasswordEmpty` element is held, marshalling the response map succeeds; the
encoder returns no error exactly when the connection takes its write, and then
`http.Error` is not called and the response has status 200 and the
Content-Type `application/json`. -/
theorem databaseConfigs_status_ok (p : Rendering) (env : Env) (conn : List WriteOutcome)
    (r : Request) :
    (∃ text, marshal (envVars p env) = .ok text) ∧
    ((Encode ((ResponseWriter.fresh conn).HeaderSet (str "Content-Type")
        (str "application/json")) (envVars p env)).2 = none ↔
      (ResponseWriter.fresh conn).acceptsNext = true) ∧
    ((ResponseWriter.fresh conn).acceptsNext = true →
      databaseConfigs p env (ResponseWriter.fresh conn) r =
        (Encode ((ResponseWriter.fresh conn).HeaderSet (str "Content-Type")
          (str "application/json")) (envVars p env)).1 ∧
      (databaseConfigs p env (ResponseWriter.fresh conn) r).status = StatusOK ∧
      headerGet (databaseConfigs p env (ResponseWriter.fresh conn) r).sentHeader
        (str "Content-Type") = str "application/json") := by
  obtain ⟨text, hm, _⟩ := marshal_envVars p env
  obtain ⟨he, _⟩ := databaseConfigs_eq p env (ResponseWriter.fresh conn) r text hm
  refine ⟨⟨text, hm⟩, ?_, ?_⟩
  · rw [he]
    exact Write_error _ _
  · intro ha
    exact ⟨(databaseConfigs_of_accepts p env (ResponseWriter.fresh conn) r text hm ha).2.1,
      databaseConfigs_committed p env (ResponseWriter.fresh conn) r rfl⟩

/-- C5, witness: the scenario environment and a connection that takes every
write, the element held as a string. -/
theorem databaseConfigs_status_ok_witness :
    (ResponseWriter.fresh []).acceptsNext = true ∧
    (databaseConfigs asString scenarioEnv (ResponseWriter.fresh [])
      (requestTo "POST" "/database-configs")).status = StatusOK ∧
    headerGet (databaseConfigs asString scenarioEnv (ResponseWriter.fresh [])
      (requestTo "POST" "/database-configs")).sentHeader (str "Content-Type") =
      str "application/json" :=
  ⟨rfl, ((databaseConfigs_status_ok asString scenarioEnv []
    (requestTo "POST" "/database-configs")).2.2 rfl).2⟩

/-- C5 as stated fails: on `brokenWriter`, the fresh writer of a connection
that fails the first write, no rendering of the `isPasswordEmpty` element makes
the encoder return without an error, so the branch that calls `http.Error` is
taken. -/
theorem databaseConfigs_encode_can_fail :
    brokenWriter = ResponseWriter.fresh [.fail 0 (.other (str "write: broken pipe"))] ∧
    ¬ ∃ p : Rendering,
      (Encode (brokenWriter.HeaderSet (str "Content-Type") (str "application/json"))
        (envVars p scenarioEnv)).2 = none := by
  refine ⟨rfl, ?_⟩
  rintro ⟨p, h⟩
  rw [(databaseConfigs_broken p scenarioEnv (requestTo "GET" "/database-configs")).1] at h
  cases h

/-- C6: on `brokenWriter`, a writer with no header committed, the encoder
returns the error `write: broken pipe` and the handler calls `http.Error(w,
..., 500)`; yet, however the `isPasswordEmpty` element is held, the response
keeps status 200 and the Content-Type `application/json`, which the encoder's
`Write` had committed, and the body is the error text and a newline. -/
theorem databaseConfigs_encode_error_not_500 :
    brokenWriter.wroteHeader = false ∧
    StatusInternalServerError = 500 ∧
    (∀ p : Rendering,
      (Encode (brokenWriter.HeaderSet (str "Content-Type") (str "application/json"))
        (envVars p scenarioEnv)).2 = some (.other (str "write: broken pipe")) ∧
      (databaseConfigs p scenarioEnv brokenWriter (requestTo "GET" "/database-configs")).status =
        200 ∧
      headerGet (databaseConfigs p scenarioEnv brokenWriter
        (requestTo "GET" "/database-configs")).sentHeader (str "Content-Type") =
        str "application/json" ∧
      (databaseConfigs p scenarioEnv brokenWriter (requestTo "GET" "/database-configs")).body =
        str "Failed to encode response: write: broken pipe\n") := by
  refine ⟨rfl, rfl, fun p => ?_⟩
  obtain ⟨h1, h2⟩ := databaseConfigs_broken p scenarioEnv (requestTo "GET" "/database-configs")
  obtain ⟨h3, h4⟩ := databaseConfigs_committed p scenarioEnv brokenWriter
    (requestTo "GET" "/database-configs") rfl
  exact ⟨h1, h3, h4, h2⟩

/-- C7: the handler ignores the request: however the `isPasswordEmpty` element
is held, for a fixed environment and writer any two requests give the same
writer state (status, headers, body). -/
theorem databaseConfigs_ignores_request (p : Rendering) (env : Env) (w : ResponseWriter)
    (r1 r2 : Request) :
    databaseConfigs p env w r1 = databaseConfigs p env w r2 := rfl

/-! ## Lemmas: the router -/

theorem serverMux_eq :
    serverMux = { m := [(str "/database-configs", .databaseConfigs)], es := [], hosts := false } := by
  decide

theorem pattern_ne_slash (c : GoString) : (str "/database-configs" == c ++ str "/") = false := by
  have h : str "/database-configs" ≠ c ++ str "/" := by
    intro h
    have h1 : (str "/database-configs").getLast? = some 115 := by decide
    have h2 : (c ++ str "/").getLast? = some 47 := by
      have : str "/" = [47] := by decide
      rw [this]; simp
    rw [h, h2] at h1
    simp at h1
  simpa using h

theorem serverMux_shouldRedirect (host path : GoString) :
    serverMux.shouldRedirectRLocked host path = false := by
  rw [serverMux_eq]
  simp only [ServeMux.shouldRedirectRLocked, List.any_cons, List.any_nil, Bool.or_false,
    pattern_ne_slash]
  split
  · rfl
  · split <;> simp

theorem serverMux_handler (host path : GoString) :
    serverMux.handler host path =
      if path = str "/database-configs" then (.databaseConfigs, str "/database-configs")
      else (.NotFoundHandler, []) := by
  rw [serverMux_eq]
  by_cases h : path = str "/database-configs"
  · subst h
    simp [ServeMux.handler, ServeMux.matchPath, List.find?]
  · have h' : (str "/database-configs" == path) = false := by
      simpa using fun e => h e.symm
    simp [ServeMux.handler, ServeMux.matchPath, List.find?, h', h]

theorem cleanPath_pattern : cleanPath (str "/database-configs") = str "/database-configs" := by
  decide

/-- The handler `ServeMux.Handler` (Go up to 1.21) selects on the router of
`main`. -/
theorem serverMux_Handler (r : Request) :
    (serverMux.Handler r).1 =
      if r.method = str "CONNECT" then
        (if r.path = str "/database-configs" then Handler.databaseConfigs
          else Handler.NotFoundHandler)
      else if cleanPath r.path ≠ r.path then
        Handler.RedirectHandler (cleanPath r.path) r.rawQuery 301
      else (if r.path = str "/database-configs" then Handler.databaseConfigs
          else Handler.NotFoundHandler) := by
  unfold ServeMux.Handler
  simp only [serverMux_shouldRedirect, serverMux_handler, Bool.false_eq_true, if_false]
  split
  · split <;> rfl
  · split
    · rfl
    · split <;> rfl

theorem PathUnescape_slash (s : GoString) :
    PathUnescape (0x2F :: s) =
      match PathUnescape s with
      | some u => some (0x2F :: u)
      | none => none := by
  rw [PathUnescape.eq_def]
  simp

theorem PathUnescape_mem_slash (n : Nat) :
    ∀ s t : GoString, s.length ≤ n → PathUnescape s = some t → 0x2F ∈ s → 0x2F ∈ t := by
  induction n with
  | zero =>
    intro s t hl _ hm
    have : s = [] := List.length_eq_zero.1 (Nat.le_zero.1 hl)
    subst this
    simp at hm
  | succ n ih =>
    intro s t hl hu hm
    rcases s with _ | ⟨c, rest⟩
    · simp at hm
    rw [PathUnescape.eq_def] at hu
    simp only at hu
    by_cases hc : c = 0x25
    · subst hc
      simp only [if_true] at hu
      rcases rest with _ | ⟨a, _ | ⟨b, rest2⟩⟩
      · simp at hu
      · simp at hu
      · simp only at hu
        cases ha : hexVal a with
        | none => simp [ha] at hu
        | some x =>
          cases hb : hexVal b with
          | none => simp [ha, hb] at hu
          | some y =>
            simp only [ha, hb] at hu
            cases hr : PathUnescape rest2 with
            | none => simp [hr] at hu
            | some u =>
              simp only [hr, Option.some.injEq] at hu
              subst hu
              have hx : hexVal 0x2F = none := by decide
              have hm2 : 0x2F ∈ rest2 := by
                simp only [List.mem_cons] at hm
                rcases hm with h | h | h | h
                · exact absurd h (by decide)
                · rw [← h, hx] at ha; cases ha
                · rw [← h, hx] at hb; cases hb
                · exact h
              have hl2 : rest2.length ≤ n := by
                simp only [List.length_cons] at hl; omega
              exact List.mem_cons_of_mem _ (ih rest2 u hl2 hr hm2)
    · simp only [hc, if_false] at hu
      cases hr : PathUnescape rest with
      | none => simp [hr] at hu
      | some u =>
        simp only [hr, Option.some.injEq] at hu
        subst hu
        have hl2 : rest.length ≤ n := by simpa using hl
        rcases List.mem_cons.1 hm with h | h
        · rw [← h]; exact List.mem_cons_self _ _
        · exact List.mem_cons_of_mem _ (ih rest u hl2 hr h)

theorem takeWhile_no_slash (s : GoString) (h : ∀ x ∈ s, x ≠ 0x2F) :
    s.takeWhile (fun x => x != 0x2F) = s ∧ s.dropWhile (fun x => x != 0x2F) = [] := by
  constructor
  · rw [List.takeWhile_eq_self_iff]
    intro x hx
    simpa using h x hx
  · rw [List.dropWhile_eq_nil_iff]
    intro x hx
    simpa using h x hx

/-- A path of one segment that is not empty, `.` or `..` is in canonical
form. -/
theorem cleanPath_segment (s : GoString) (hne : s ≠ []) (hs : ∀ x ∈ s, x ≠ 0x2F)
    (h1 : s ≠ str ".") (h2 : s ≠ str "..") : cleanPath (0x2F :: s) = 0x2F :: s := by
  obtain ⟨ht, hd⟩ := takeWhile_no_slash s hs
  rcases s with _ | ⟨c, rem1⟩
  · exact absurd rfl hne
  have hc : c ≠ 0x2F := hs c (List.mem_cons_self _ _)
  have hhead : rem1.head? ≠ some 0x2F := by
    intro h
    rcases rem1 with _ | ⟨d, rem2⟩
    · simp at h
    · simp only [List.head?_cons, Option.some.injEq] at h
      exact hs d (by simp) h
  have c2 : ¬ (c = 0x2E ∧ (rem1 = [] ∨ rem1.head? = some 0x2F)) := by
    rintro ⟨rfl, h | h⟩
    · subst h; exact h1 (by decide)
    · exact hhead h
  have c3 : ¬ (c = 0x2E ∧ rem1.head? = some 0x2E ∧
      (rem1.tail = [] ∨ rem1.tail.head? = some 0x2F)) := by
    rintro ⟨rfl, h, h'⟩
    rcases rem1 with _ | ⟨d, rem2⟩
    · simp at h
    · simp only [List.head?_cons, Option.some.injEq] at h
      subst h
      rcases h' with h' | h'
      · simp only [List.tail_cons] at h'
        subst h'
        exact h2 (by decide)
      · rcases rem2 with _ | ⟨e, rem3⟩
        · simp at h'
        · simp only [List.tail_cons, List.head?_cons, Option.some.injEq] at h'
          exact hs e (by simp) h'
  have hloop : cleanLoop true (rem1.length + 1 + 1) (c :: rem1) [0x2F] 1 =
      0x2F :: c :: rem1 := by
    simp only [cleanLoop, if_neg hc, if_neg c2, if_neg c3, ht, hd]
    cases rem1.length <;> simp [cleanLoop]
  have hlast : (c :: rem1).getLast? ≠ some 0x2F := by
    intro h
    rw [List.getLast?_eq_getLast _ (by simp)] at h
    simp only [Option.some.injEq] at h
    exact hs _ (List.getLast_mem (l := c :: rem1) (by simp)) h
  simp [cleanPath, Clean, hloop, hlast]

theorem pathSegments_nil (n : Nat) : pathSegments n [] = [] := by
  cases n <;> simp [pathSegments]

theorem pathSegments_cons (n c : Nat) (p : GoString) :
    pathSegments (n + 1) (c :: p) =
      (firstSegment (c :: p)).1 :: pathSegments n (firstSegment (c :: p)).2 := by
  simp [pathSegments]

/-- The escaped paths the pattern `/database-configs` matches in the routing
tree: one segment, no further slash, that unescapes to `database-configs`. -/
theorem pathSegments_single_iff (e : GoString) :
    pathSegments e.length e = [str "database-configs"] ↔
      ∃ c s, e = c :: s ∧ (∀ x ∈ s, x ≠ 0x2F) ∧ pathUnescape s = str "database-configs" := by
  constructor
  · intro h
    rcases e with _ | ⟨c, p⟩
    · simp [pathSegments] at h
    rw [List.length_cons, pathSegments_cons] at h
    by_cases hsl : c :: p = str "/"
    · simp only [firstSegment, hsl, if_true, List.cons.injEq] at h
      exact absurd h.1 (by decide)
    · simp only [firstSegment, hsl, if_false, List.drop_succ_cons, List.drop_zero,
        List.cons.injEq] at h
      obtain ⟨hseg, hrest⟩ := h
      have hd : p.dropWhile (fun x => x != 0x2F) = [] := by
        by_contra hne
        rcases hp : p with _ | ⟨a, q⟩
        · rw [hp] at hne; simp at hne
        · rw [hp] at hrest hne
          rcases hq : (a :: q).dropWhile (fun x => x != 0x2F) with _ | ⟨b, t⟩
          · exact hne hq
          · rw [hq, List.length_cons, pathSegments_cons] at hrest
            cases hrest
      have hs : ∀ x ∈ p, x ≠ 0x2F := by
        intro x hx
        have := (List.dropWhile_eq_nil_iff.1 hd) x hx
        simpa using this
      rw [(takeWhile_no_slash p hs).1] at hseg
      exact ⟨c, p, rfl, hs, hseg⟩
  · rintro ⟨c, s, rfl, hs, hu⟩
    have hne : s ≠ [] := by
      rintro rfl
      exact absurd hu (by decide)
    have hsl : c :: s ≠ str "/" := by
      intro h
      have hl := congrArg List.length h
      have h1 : (str "/").length = 1 := by decide
      rw [h1, List.length_cons] at hl
      exact hne (List.length_eq_zero.1 (by omega))
    rw [List.length_cons, pathSegments_cons]
    simp only [firstSegment, hsl, if_false, List.drop_succ_cons, List.drop_zero,
      (takeWhile_no_slash s hs).1, (takeWhile_no_slash s hs).2, hu, pathSegments_nil]

theorem serverMux_matchSegments (e : GoString) :
    serverMux.matchSegments e =
      if pathSegments e.length e = [str "database-configs"] then
        some (.databaseConfigs, str "/database-configs")
      else none := by
  rw [serverMux_eq]
  have hp : pathSegments (str "/database-configs").length (str "/database-configs") =
      [str "database-configs"] := by decide
  simp only [ServeMux.matchSegments, List.find?, hp]
  by_cases h : pathSegments e.length e = [str "database-configs"]
  · simp [h]
  · have h' : ([str "database-configs"] == pathSegments e.length e) = false := by
      simpa using fun x => h x.symm
    simp [h, h']

/-- For a request built by the server, the escaped path is matched by the
pattern exactly when the path is `/database-configs`, and then the escaped
path is in canonical form. -/
theorem wellFormed_match (r : Request) (hwf : r.wellFormed = true) :
    (pathSegments r.escapedPath.length r.escapedPath = [str "database-configs"] ↔
      r.path = str "/database-configs") ∧
    (r.path = str "/database-configs" → cleanPath r.escapedPath = r.escapedPath) := by
  simp only [Request.wellFormed, Bool.and_eq_true, Bool.or_eq_true, beq_iff_eq] at hwf
  obtain ⟨hU, hH⟩ := hwf
  have hP : str "/database-configs" = 0x2F :: str "database-configs" := by decide
  have key : r.path = str "/database-configs" →
      ∃ s, r.escapedPath = 0x2F :: s ∧ (∀ x ∈ s, x ≠ 0x2F) ∧
        PathUnescape s = some (str "database-configs") := by
    intro hp
    rcases he : r.escapedPath with _ | ⟨c, s⟩
    · rw [he, hp] at hU
      exact absurd hU (by decide)
    · rw [he] at hU hH
      have hc : c = 0x2F := by
        rcases hH with h | h
        · cases h
        · simpa using h
      subst hc
      rw [PathUnescape_slash, hp, hP] at hU
      cases hs : PathUnescape s with
      | none => simp [hs] at hU
      | some u =>
        simp only [hs, Option.some.injEq, List.cons.injEq, true_and] at hU
        subst hU
        refine ⟨s, rfl, ?_, hs⟩
        intro x hx hx2
        subst hx2
        exact absurd (PathUnescape_mem_slash s.length s _ (Nat.le_refl _) hs hx) (by decide)
  refine ⟨⟨?_, ?_⟩, ?_⟩
  · intro h
    obtain ⟨c, s, he, hs, hu⟩ := (pathSegments_single_iff _).1 h
    rw [he] at hU hH
    have hc : c = 0x2F := by
      rcases hH with h | h
      · cases h
      · simpa using h
    subst hc
    rw [PathUnescape_slash] at hU
    cases hs' : PathUnescape s with
    | none => simp [hs'] at hU
    | some u =>
      simp only [hs', Option.some.injEq] at hU
      simp only [pathUnescape, hs'] at hu
      rw [← hU, hu, hP]
  · intro hp
    obtain ⟨s, he, hs, hu⟩ := key hp
    rw [he]
    exact (pathSegments_single_iff _).2 ⟨0x2F, s, rfl, hs, by simp [pathUnescape, hu]⟩
  · intro hp
    obtain ⟨s, he, hs, hu⟩ := key hp
    rw [he]
    refine cleanPath_segment s ?_ hs ?_ ?_
    · rintro rfl
      exact absurd hu (by decide)
    · rintro rfl
      exact absurd hu (by decide)
    · rintro rfl
      exact absurd hu (by decide)

/-- The handler `ServeMux.findHandler` (Go since 1.22) selects on the router of
`main`, for a request built by the server. -/
theorem serverMux_findHandler (code : Nat) (r : Request) (hwf : r.wellFormed = true) :
    (serverMux.findHandler code r).1 =
      if r.method = str "CONNECT" then
        (if r.path = str "/database-configs" then Handler.databaseConfigs
          else Handler.NotFoundHandler)
      else if cleanPath r.escapedPath ≠ r.escapedPath then
        Handler.RedirectHandler (cleanPath r.escapedPath) r.rawQuery code
      else (if r.path = str "/database-configs" then Handler.databaseConfigs
          else Handler.NotFoundHandler) := by
  obtain ⟨hiff, _⟩ := wellFormed_match r hwf
  unfold ServeMux.findHandler
  by_cases hm : r.method = str "CONNECT"
  · simp only [hm, if_true, serverMux_matchSegments]
    by_cases hp : r.path = str "/database-configs"
    · simp [hp, hiff.2 hp]
    · have : ¬ pathSegments r.escapedPath.length r.escapedPath = [str "database-configs"] :=
        fun h => hp (hiff.1 h)
      simp [hp, this]
  · simp only [hm, if_false]
    by_cases hc : cleanPath r.escapedPath = r.escapedPath
    · simp only [hc, ne_eq, not_true_eq_false, if_false, serverMux_matchSegments]
      by_cases hp : r.path = str "/database-configs"
      · simp [hp, hiff.2 hp]
      · have : ¬ pathSegments r.escapedPath.length r.escapedPath = [str "database-configs"] :=
          fun h => hp (hiff.1 h)
        simp [hp, this]
    · simp [hc]

/-- The handler the router of `main` runs, on either toolchain, for a request
built by the server. -/
theorem serverMux_ServeHTTP (tc : Toolchain) (r : Request) (hwf : r.wellFormed = true)
    (hu : r.requestURI ≠ str "*") :
    serverMux.ServeHTTP tc r =
      .run (if r.method = str "CONNECT" then
        (if r.path = str "/database-configs" then Handler.databaseConfigs
          else Handler.NotFoundHandler)
      else if cleanPath (tc.seen r) ≠ tc.seen r then
        Handler.RedirectHandler (cleanPath (tc.seen r)) r.rawQuery tc.redirectCode
      else (if r.path = str "/database-configs" then Handler.databaseConfigs
          else Handler.NotFoundHandler)) := by
  unfold ServeMux.ServeHTTP
  cases tc with
  | upTo121 => simp only [hu, if_false, serverMux_Handler, Toolchain.seen, Toolchain.redirectCode]
  | since122 code =>
    simp only [hu, if_false, serverMux_findHandler code r hwf, Toolchain.seen,
      Toolchain.redirectCode]

/-! ## The claim about the router -/

/-- C8, as the code has it, on either toolchain and for every request built by
the server: the router of `main` holds the one pattern `/database-configs`.
A request is dispatched to `databaseConfigs` exactly when its request URI is
not `*` and its path is exactly `/database-configs`.  For any other path
(request URI not `*`) `databaseConfigs` is not run: the router answers with
the not-found handler when the path the mux works on is in canonical form (as
`/`, `/database-configs/` and `/database-configs/x` are) or the method is
`CONNECT`, and otherwise with a redirect to the canonical path, with the
status code of the toolchain. -/
theorem serverMux_dispatch (tc : Toolchain) (r : Request) (hwf : r.wellFormed = true) :
    serverMux.m.map (fun e => e.1) = [str "/database-configs"] ∧
    cleanPath (str "/") = str "/" ∧
    cleanPath (str "/database-configs/") = str "/database-configs/" ∧
    cleanPath (str "/database-configs/x") = str "/database-configs/x" ∧
    cleanPath (str "//database-configs") = str "/database-configs" ∧
    (serverMux.ServeHTTP tc r = .run .databaseConfigs ↔
      (r.requestURI ≠ str "*" ∧ r.path = str "/database-configs")) ∧
    (r.requestURI ≠ str "*" → r.path ≠ str "/database-configs" →
      (r.method = str "CONNECT" ∨ cleanPath (tc.seen r) = tc.seen r) →
      serverMux.ServeHTTP tc r = .run .NotFoundHandler) ∧
    (r.requestURI ≠ str "*" → r.path ≠ str "/database-configs" →
      r.method ≠ str "CONNECT" → cleanPath (tc.seen r) ≠ tc.seen r →
      serverMux.ServeHTTP tc r =
        .run (.RedirectHandler (cleanPath (tc.seen r)) r.rawQuery tc.redirectCode)) := by
  have hclean : r.path = str "/database-configs" → cleanPath (tc.seen r) = tc.seen r := by
    intro hp
    cases tc with
    | upTo121 =>
      simp only [Toolchain.seen, hp]
      exact cleanPath_pattern
    | since122 code => exact (wellFormed_match r hwf).2 hp
  refine ⟨by decide, by decide, by decide, by decide, by decide, ?_, ?_, ?_⟩
  · by_cases hu : r.requestURI = str "*"
    · simp [ServeMux.ServeHTTP, hu]
    · rw [serverMux_ServeHTTP tc r hwf hu]
      simp only [Dispatch.run.injEq, ne_eq, hu, not_false_eq_true, true_and]
      by_cases hp : r.path = str "/database-configs"
      · simp [hp, hclean hp]
      · simp only [hp, if_false, iff_false]
        split
        · simp
        · split <;> simp
  · intro hu hp hc
    rw [serverMux_ServeHTTP tc r hwf hu]
    rcases hc with hc | hc
    · simp [hc, hp]
    · simp [hc, hp]
  · intro hu hp hm hc
    rw [serverMux_ServeHTTP tc r hwf hu]
    simp [hm, hc]

/-- C8, witness: on a toolchain since Go 1.22 that redirects with 307,
`/database-configs/x` is answered by the not-found handler and
`/a/../database-configs` by a redirect to `/database-configs`. -/
theorem serverMux_dispatch_witness :
    (requestTo "GET" "/database-configs/x").wellFormed = true ∧
    (requestTo "GET" "/a/../database-configs").wellFormed = true ∧
    serverMux.ServeHTTP (.since122 307) (requestTo "GET" "/database-configs/x") =
      .run .NotFoundHandler ∧
    serverMux.ServeHTTP (.since122 307) (requestTo "GET" "/a/../database-configs") =
      .run (.RedirectHandler (cleanPath (str "/a/../database-configs")) [] 307) :=
  ⟨by decide, by decide,
    (serverMux_dispatch (.since122 307) (requestTo "GET" "/database-configs/x")
      (by decide)).2.2.2.2.2.2.1 (by decide) (by decide) (Or.inr (by decide)),
    (serverMux_dispatch (.since122 307) (requestTo "GET" "/a/../database-configs")
      (by decide)).2.2.2.2.2.2.2 (by decide) (by decide) (by decide) (by decide)⟩

/-- C8 as stated fails on either toolchain: the path `//database-configs` is
not exactly `/database-configs`, and the router does not answer with its
not-found response but with a redirect to `/database-configs`. -/
theorem serverMux_redirects_unclean_path :
    (requestTo "GET" "//database-configs").path ≠ str "/database-configs" ∧
    (requestTo "GET" "//database-configs").wellFormed = true ∧
    (∀ tc : Toolchain,
      serverMux.ServeHTTP tc (requestTo "GET" "//database-configs") =
        .run (.RedirectHandler (str "/database-configs") [] tc.redirectCode)) ∧
    (¬ ∃ tc : Toolchain,
      serverMux.ServeHTTP tc (requestTo "GET" "//database-configs") = .run .NotFoundHandler) := by
  have h : ∀ tc : Toolchain,
      serverMux.ServeHTTP tc (requestTo "GET" "//database-configs") =
        .run (.RedirectHandler (str "/database-configs") [] tc.redirectCode) := by
    intro tc
    rw [serverMux_ServeHTTP tc _ (by decide) (by decide)]
    have hm : (requestTo "GET" "//database-configs").method ≠ str "CONNECT" := by decide
    have hs : tc.seen (requestTo "GET" "//database-configs") = str "//database-configs" := by
      cases tc <;> rfl
    have hc : cleanPath (str "//database-configs") = str "/database-configs" := by decide
    have hne : str "/database-configs" ≠ str "//database-configs" := by decide
    have hq : (requestTo "GET" "//database-configs").rawQuery = [] := rfl
    simp only [hm, if_false, hs, hc, ne_eq, hne, not_false_eq_true, if_true, hq]
  refine ⟨by decide, by decide, h, ?_⟩
  rintro ⟨tc, htc⟩
  rw [h tc] at htc
  cases htc

/-! ## Lemmas: the two threads of `main` -/

theorem exitCode_interleave_log (l : GoString) (s : List Bool) (ys : List Event) :
    exitCode (interleave s [.log l] ys) = exitCode ys := by
  induction ys generalizing s with
  | nil => simp [interleave, exitCode, List.findSome?]
  | cons y ys ih =>
    rcases s with _ | ⟨b, s⟩
    · simp [interleave, exitCode, List.findSome?]
    · cases b
      · simp only [interleave]
        have := ih s
        simp only [exitCode, List.findSome?] at this ⊢
        rw [this]
      · simp [interleave, exitCode, List.findSome?]

/-! ## The claims about `main` -/

/-- C9: the background task ends the process (a fatal log line, then exit
code 1) exactly when `errors.Is(err, http.ErrServerClosed)` is false for the
error `ListenAndServe` returned; when it is true the task logs that the server
stopped serving and returns, with no exit.  `http.ErrServerClosed` itself is
such an error, and for an error that wraps nothing the test is `err ==
http.ErrServerClosed`. -/
theorem serveTask_fatal_iff (err : Option GoError) :
    (exitCode (serveTask err) = some 1 ↔ errorsIs err .ErrServerClosed = false) ∧
    (exitCode (serveTask err) = none ↔ errorsIs err .ErrServerClosed = true) ∧
    (errorsIs err .ErrServerClosed = false →
      serveTask err =
        [.log (str "HTTP ListenAndServe error: " ++ formatError err), .exit 1]) ∧
    (errorsIs err .ErrServerClosed = true →
      serveTask err = [.log (str "HTTP server stopped serving new requests.")]) ∧
    errorsIs (some .ErrServerClosed) .ErrServerClosed = true ∧
    (∀ e : GoError, (∀ m i, e ≠ .wrap m i) →
      (errorsIs (some e) .ErrServerClosed = true ↔ e = .ErrServerClosed)) := by
  refine ⟨?_, ?_, ?_, ?_, by decide, ?_⟩
  · cases h : errorsIs err .ErrServerClosed <;>
      simp [serveTask, h, Fatalf, exitCode, List.findSome?]
  · cases h : errorsIs err .ErrServerClosed <;>
      simp [serveTask, h, Fatalf, exitCode, List.findSome?]
  · intro h
    simp [serveTask, h, Fatalf]
  · intro h
    simp [serveTask, h]
  · intro e he
    cases e with
    | ErrServerClosed => simp [errorsIs, errorsIsChain]
    | DeadlineExceeded => simp [errorsIs, errorsIsChain]
    | other msg => simp [errorsIs, errorsIsChain]
    | wrap m i => exact absurd rfl (he m i)

/-- C9, witness: a bind failure ends the process with exit code 1, and
`http.ErrServerClosed` does not. -/
theorem serveTask_fatal_iff_witness :
    serveTask (some bindError) =
      [.log (str "HTTP ListenAndServe error: listen tcp :9090: bind: address already in use"),
        .exit 1] ∧
    serveTask (some .ErrServerClosed) =
      [.log (str "HTTP server stopped serving new requests.")] :=
  ⟨((serveTask_fatal_iff (some bindError)).2.2.1 (by decide)).trans (by decide),
    (serveTask_fatal_iff (some .ErrServerClosed)).2.2.2.1 (by decide)⟩

/-- C10: after SIGINT or SIGTERM, `main` calls `server.Shutdown` exactly once,
with a context whose deadline is 10 seconds (10^10 ns) after the time `now` at
which it took the signal; the process ends with code 0, after logging
`Shutdown complete.`, exactly when `Shutdown` returns no error, and with a
fatal log line and code 1 for every error `Shutdown` returns.  The exit code
is the same however the background task, whose `ListenAndServe` returns
`http.ErrServerClosed` once `Shutdown` is called, is scheduled against the
main thread. -/
theorem main_shutdown (sig : Signal) (now : Nat) (Shutdown : Nat → Option GoError) :
    (main (some sig) now Shutdown).filter Event.isShutdown =
      [.shutdown (now + 10000000000)] ∧
    (exitCode (main (some sig) now Shutdown) = some 0 ↔
      Shutdown (now + 10000000000) = none) ∧
    (Shutdown (now + 10000000000) = none →
      main (some sig) now Shutdown =
        [.log (str "Shutting down the server..."), .shutdown (now + 10000000000),
          .log (str "Shutdown complete."), .exit 0]) ∧
    (∀ e, Shutdown (now + 10000000000) = some e →
      main (some sig) now Shutdown =
        [.log (str "Shutting down the server..."), .shutdown (now + 10000000000),
          .log (str "HTTP shutdown error: " ++ e.Error), .exit 1] ∧
      exitCode (main (some sig) now Shutdown) = some 1) ∧
    (∀ schedule : List Bool,
      exitCode (interleave schedule (serveTask (some .ErrServerClosed))
        (main (some sig) now Shutdown)) = exitCode (main (some sig) now Shutdown)) := by
  have hs : 10 * Second = 10000000000 := by decide
  refine ⟨?_, ?_, ?_, ?_, fun schedule => exitCode_interleave_log _ schedule _⟩
  · cases h : Shutdown (now + 10000000000) <;>
      simp [main, hs, h, Fatalf, Event.isShutdown, List.filter]
  · cases h : Shutdown (now + 10000000000) <;>
      simp [main, hs, h, Fatalf, exitCode, List.findSome?]
  · intro h
    simp [main, hs, h]
  · intro e h
    simp [main, hs, h, Fatalf, exitCode, List.findSome?, formatError]

/-- C10, witness: SIGTERM at time 5 with a `Shutdown` that runs into the
deadline: one `Shutdown` call with deadline 5 + 10^10, a fatal log line and
exit code 1. -/
theorem main_shutdown_witness :
    main (some .SIGTERM) 5 (fun _ => some .DeadlineExceeded) =
      [.log (str "Shutting down the server..."), .shutdown 10000000005,
        .log (str "HTTP shutdown error: context deadline exceeded"), .exit 1] :=
  (((main_shutdown .SIGTERM 5 (fun _ => some .DeadlineExceeded)).2.2.2.1
    .DeadlineExceeded rfl).1).trans (by decide)

end DatabaseConnectionTest
